import Mathlib

/-!
Verification development for the craft-archives repository.

The Python sources are shallowly embedded:
* character-level models of the Python `str` operations the code uses
  (`split`, `split(maxsplit=n)`, `strip`, `rstrip`, `partition`, `join`,
  `splitlines`, `startswith`, `endswith`, slicing, `upper`);
* `craft_archives/defaults.py`: the `AptSource` model, the deb822 and
  one-line sources.list parsers and serializers;
* `craft_archives/repo/package_repository.py`: the validated construction of
  the three repository variants, mirroring the pydantic validator pipeline;
* `craft_archives/repo/apt_key_manager.py`: key-path derivation, fingerprint
  extraction, and the key-installation operations, with the filesystem and
  the external gpg tool represented as an explicit environment.

Modelling scope for strings: Python whitespace is modelled by the character
set recognised by CPython's `str.split` / `str.strip`; line boundaries for
`splitlines` are the CPython set of single boundary characters plus the
CR LF pair.
-/

deriving instance DecidableEq for Except

namespace CraftArchives

/-- Characters treated as whitespace by Python's `str.split`, `str.strip`,
`str.rstrip` (the CPython Unicode whitespace set). -/
def pyIsSpace (c : Char) : Bool :=
  c.val ∈ ([0x09, 0x0a, 0x0b, 0x0c, 0x0d, 0x1c, 0x1d, 0x1e, 0x1f, 0x20,
            0x85, 0xa0, 0x1680,
            0x2000, 0x2001, 0x2002, 0x2003, 0x2004, 0x2005, 0x2006, 0x2007,
            0x2008, 0x2009, 0x200a, 0x2028, 0x2029, 0x202f, 0x205f, 0x3000] : List UInt32)

/-- Characters at which Python's `str.splitlines` breaks a line (modulo the
CR LF pair, which is handled separately).  Every line-boundary character is
also Python whitespace. -/
def pyIsLineBreak (c : Char) : Bool :=
  c.val ∈ ([0x0a, 0x0b, 0x0c, 0x0d, 0x1c, 0x1d, 0x1e, 0x85, 0x2028, 0x2029] : List UInt32)

/-- Skip leading whitespace and extract the next whitespace-free word, as in
the loop of CPython's whitespace `str.split`.  Returns the word and the
remaining characters, or `none` if only whitespace remains. -/
def nextWord (cs : List Char) : Option (List Char × List Char) :=
  match cs.dropWhile pyIsSpace with
  | [] => none
  | x :: t => some ((x :: t).takeWhile (fun c => !pyIsSpace c),
                    (x :: t).dropWhile (fun c => !pyIsSpace c))

theorem dropWhile_head_false {p : Char → Bool} {l : List Char} {x : Char} {xs : List Char}
    (h : l.dropWhile p = x :: xs) : p x = false := by
  induction l with
  | nil => simp at h
  | cons c t ih =>
    rw [List.dropWhile_cons] at h
    split at h
    · exact ih h
    · cases h
      simp_all

theorem length_dropWhile_le (p : Char → Bool) (l : List Char) :
    (l.dropWhile p).length ≤ l.length := by
  induction l with
  | nil => simp
  | cons c t ih =>
    rw [List.dropWhile_cons]
    split
    · exact Nat.le_succ_of_le ih
    · simp

theorem nextWord_rest_length {cs w rest : List Char}
    (h : nextWord cs = some (w, rest)) : rest.length < cs.length := by
  unfold nextWord at h
  cases hm : cs.dropWhile pyIsSpace with
  | nil => rw [hm] at h; simp at h
  | cons x t =>
    rw [hm] at h
    simp only [Option.some.injEq, Prod.mk.injEq] at h
    obtain ⟨_, hr⟩ := h
    have hx : pyIsSpace x = false := dropWhile_head_false hm
    rw [List.dropWhile_cons] at hr
    simp only [hx, Bool.not_false, if_true] at hr
    have h2 : rest.length ≤ t.length := by
      rw [← hr]; exact length_dropWhile_le _ t
    have h3 : (x :: t).length ≤ cs.length := by
      rw [← hm]; exact length_dropWhile_le _ cs
    simp only [List.length_cons] at h3
    omega

/-- The accumulator loop of Python's whitespace `str.split()`: `acc` holds
the current word, reversed. -/
def splitWsAux : List Char → List Char → List (List Char)
  | [], acc => if acc.isEmpty then [] else [acc.reverse]
  | c :: cs, acc =>
    if pyIsSpace c then
      if acc.isEmpty then splitWsAux cs []
      else acc.reverse :: splitWsAux cs []
    else splitWsAux cs (c :: acc)

/-- Python `str.split()` with no separator: split on runs of whitespace,
dropping empty pieces.  Character-list level. -/
def pySplitWsCore (cs : List Char) : List (List Char) :=
  splitWsAux cs []

/-- Python `str.split(maxsplit=n)` with no separator: at most `n` words are
taken in the loop; afterwards leading whitespace is skipped and the whole
remainder (internal whitespace included) forms the final piece. -/
def pySplitWsMaxCore : Nat → List Char → List (List Char)
  | 0, cs =>
    let rest := cs.dropWhile pyIsSpace
    if rest.isEmpty then [] else [rest]
  | n + 1, cs =>
    match nextWord cs with
    | none => []
    | some (w, rest) => w :: pySplitWsMaxCore n rest

/-- Python `str.lstrip()` on characters. -/
def lstripChars (cs : List Char) : List Char := cs.dropWhile pyIsSpace

/-- Python `str.rstrip()` on characters. -/
def rstripChars (cs : List Char) : List Char := (cs.reverse.dropWhile pyIsSpace).reverse

/-- Python `str.strip()` on characters. -/
def stripChars (cs : List Char) : List Char := rstripChars (lstripChars cs)

/-- Find the first occurrence of `sep` in `cs`; returns the characters before
and after it.  Used to model Python `str.partition` (whose separator here is
always the nonempty string `": "`). -/
def findSub (cs sep : List Char) : Option (List Char × List Char) :=
  if sep.isPrefixOf cs then some ([], cs.drop sep.length)
  else
    match cs with
    | [] => none
    | c :: t => (findSub t sep).map (fun p => (c :: p.1, p.2))

/-- Python `str.splitlines()` accumulator loop: `acc` is the current line,
reversed; a CR LF pair is one boundary. -/
def splitlinesAux : List Char → List Char → List (List Char)
  | [], acc => if acc.isEmpty then [] else [acc.reverse]
  | [c], acc =>
    if pyIsLineBreak c then [acc.reverse]
    else [(c :: acc).reverse]
  | c1 :: c2 :: rest, acc =>
    if c1 = '\r' && c2 = '\n' then acc.reverse :: splitlinesAux rest []
    else if pyIsLineBreak c1 then acc.reverse :: splitlinesAux (c2 :: rest) []
    else splitlinesAux (c2 :: rest) (c1 :: acc)

/-- Python `str.split()` (whitespace, no limit) at the `String` level. -/
def pySplitWs (s : String) : List String := (pySplitWsCore s.data).map String.mk

/-- Python `str.split(maxsplit=n)` at the `String` level. -/
def pySplitWsMax (s : String) (n : Nat) : List String :=
  (pySplitWsMaxCore n s.data).map String.mk

/-- Python `str.strip()`. -/
def pyStrip (s : String) : String := ⟨stripChars s.data⟩

/-- Python `str.rstrip()`. -/
def pyRstrip (s : String) : String := ⟨rstripChars s.data⟩

/-- Python `str.partition(sep)`: `(before, sep, after)` at the first
occurrence of `sep`, or `(s, "", "")` when `sep` does not occur. -/
def pyPartition (s sep : String) : String × String × String :=
  match findSub s.data sep.data with
  | some (b, a) => (⟨b⟩, sep, ⟨a⟩)
  | none => (s, "", "")

/-- Python `str.splitlines()`. -/
def pySplitlines (s : String) : List String :=
  (splitlinesAux s.data []).map String.mk

/-- Python `str.startswith(pre)`. -/
def pyStartsWith (s pre : String) : Bool := pre.data.isPrefixOf s.data

/-- Python `str.endswith(suf)`. -/
def pyEndsWith (s suf : String) : Bool := suf.data.isSuffixOf s.data

/-- Python `sep.join(xs)`. -/
def pyJoin (sep : String) : List String → String
  | [] => ""
  | [x] => x
  | x :: y :: xs => x ++ sep ++ pyJoin sep (y :: xs)

/-- Python `s[-k:]`: the last `k` characters (the whole string when it is
shorter). -/
def pySliceLast (s : String) (k : Nat) : String := ⟨s.data.drop (s.data.length - k)⟩

/-- Python `str.upper()` (character-wise; coincides with `Char.toUpper` on
the ASCII strings involved). -/
def pyUpper (s : String) : String := ⟨s.data.map Char.toUpper⟩

/-! ## `craft_archives/defaults.py`: the `AptSource` model

The pydantic `AnyUrl | FileUrl` and `pathlib.Path` field types belong to
external libraries, so their validation/normalisation is a parameter of the
embedding: `Norms.url` returns `none` when pydantic would reject the URL and
otherwise the string form of the validated URL; `Norms.path` is
`str(pathlib.Path(s))`. -/

structure Norms where
  url : String → Option String
  path : String → String

/-- The `AptSource` pydantic model of `defaults.py` (the `uris` and
`signed_by` fields hold the string forms of the validated values). -/
structure AptSource where
  types : List String
  uris : List String
  suites : List String
  components : List String
  signed_by : Option String := none
  architectures : Option (List String) := none
deriving DecidableEq

/-- Pydantic validation of the `types` field: each element must be the
literal `"deb"` or `"deb-src"`. -/
def validTypes (ts : List String) : Bool :=
  ts.all (fun t => t == "deb" || t == "deb-src")

/-- Pydantic validation of the `uris` field: every URL must validate. -/
def validateUrls (n : Norms) : List String → Option (List String)
  | [] => some []
  | u :: us =>
    match n.url u with
    | none => none
    | some u2 => (validateUrls n us).map (u2 :: ·)

/-- Pydantic `AptSource.model_validate` on a dict with the given optional
entries: `types`, `uris`, `suites` and `components` are required,
`signed_by` and `architectures` default to `None`.  (An `enabled` dict key
is ignored: the model has no such field and extra keys are ignored.) -/
def AptSource.model_validate (n : Norms)
    (types uris suites components : Option (List String))
    (signed_by : Option String) (architectures : Option (List String)) :
    Except String AptSource :=
  match types, uris, suites, components with
  | some ts, some us, some ss, some cs =>
    if validTypes ts then
      match validateUrls n us with
      | some us2 =>
        .ok { types := ts, uris := us2, suites := ss, components := cs,
              signed_by := signed_by.map n.path, architectures := architectures }
      | none => .error "Input should be a valid URL"
    else .error "Input should be 'deb' or 'deb-src'"
  | _, _, _, _ => .error "Field required"

/-- The dict built line by line by `AptSource._from_deb822_paragraph`. -/
structure Deb822Dict where
  types : Option (List String) := none
  uris : Option (List String) := none
  suites : Option (List String) := none
  components : Option (List String) := none
  enabled : Option String := none
  signed_by : Option String := none
  architectures : Option (List String) := none
deriving DecidableEq

/-- Python falsiness of the dict (`if not model_dict`). -/
def Deb822Dict.isEmptyDict (d : Deb822Dict) : Bool :=
  d.types.isNone && d.uris.isNone && d.suites.isNone && d.components.isNone &&
  d.enabled.isNone && d.signed_by.isNone && d.architectures.isNone

/-- The `match field` dispatch of the line loop of
`AptSource._from_deb822_paragraph` (`field, _, value` being the partition
of the stripped line). -/
def processDeb822Field (d : Deb822Dict) (field value : String) : Except String Deb822Dict :=
  if field == "Types" then .ok { d with types := some (pySplitWs value) }
  else if field == "URIs" then
    if (pySplitWs value).length > 1 then
      .error "deb822 paragraphs with multiple URIs are unsupported."
    else .ok { d with uris := some (pySplitWs value) }
  else if field == "Suites" then .ok { d with suites := some (pySplitWs value) }
  else if field == "Components" then .ok { d with components := some (pySplitWs value) }
  else if field == "Enabled" then .ok { d with enabled := some value }
  else if field == "Signed-By" then .ok { d with signed_by := some value }
  else if field == "Architectures" then .ok { d with architectures := some (pySplitWs value) }
  else .ok d

/-- One iteration of the line loop of `AptSource._from_deb822_paragraph`:
skip comment lines, otherwise partition the stripped line at `": "` and
dispatch on the field name. -/
def processDeb822Line (d : Deb822Dict) (line : String) : Except String Deb822Dict :=
  if pyStartsWith (pyStrip line) "#" then .ok d
  else
    processDeb822Field d (pyPartition (pyStrip line) ": ").1
      (pyPartition (pyStrip line) ": ").2.2

/-- The line loop of `AptSource._from_deb822_paragraph`: an exception raised
on any line aborts the whole paragraph. -/
def foldProcess (d : Deb822Dict) : List String → Except String Deb822Dict
  | [] => .ok d
  | line :: rest =>
    match processDeb822Line d line with
    | .error e => .error e
    | .ok d' => foldProcess d' rest

/-- `AptSource._from_deb822_paragraph`: fold the lines into a dict, return
`None` for an empty dict, otherwise validate the model.  A `ValueError`
raised on a multi-URI line aborts the parse (`Except.error`). -/
def from_deb822_paragraph (n : Norms) (paragraph : List String) :
    Except String (Option AptSource) :=
  match foldProcess {} paragraph with
  | .error e => .error e
  | .ok d =>
    if d.isEmptyDict then .ok none
    else
      match AptSource.model_validate n d.types d.uris d.suites d.components
          d.signed_by d.architectures with
      | .ok e => .ok (some e)
      | .error m => .error m

/-- `AptSource._from_sources_list_line`: `data.split(maxsplit=3)` must
produce exactly four fields (fewer raise a `ValueError` at unpacking;
more are impossible). -/
def from_sources_list_line (n : Norms) (data : String) : Except String AptSource :=
  match pySplitWsMax data 3 with
  | [repo_format, uri, suite, components] =>
    AptSource.model_validate n (some [repo_format]) (some [uri]) (some [suite])
      (some (pySplitWs components)) none none
  | _ => .error "not enough values to unpack"

/-- `AptSource.from_sources_list` on the list of lines of the file: strip
each line, skip empty and comment lines, parse the rest in order. -/
def from_sources_list (n : Norms) : List String → Except String (List AptSource)
  | [] => .ok []
  | line :: rest =>
    let stripped := pyStrip line
    if stripped == "" || pyStartsWith stripped "#" then from_sources_list n rest
    else
      match from_sources_list_line n stripped with
      | .error e => .error e
      | .ok r => (from_sources_list n rest).map (r :: ·)

/-- `AptSource.to_sources_list`: one line per (suite, uri, type) combination,
in the comprehension's order (suites outermost, types innermost);
`components` defaults to `"main"` when the list is empty. -/
def AptSource.to_sources_list (e : AptSource) : List String :=
  let components := if e.components.isEmpty then "main" else pyJoin " " e.components
  e.suites.flatMap (fun suite =>
    e.uris.flatMap (fun uri =>
      e.types.map (fun pkg_type =>
        pkg_type ++ " " ++ uri ++ " " ++ suite ++ " " ++ components)))

/-- `AptSource.to_deb822`: the dedented f-string, `rstrip`ped, plus a final
newline.  `Types` defaults to `"deb"` and `Components` to `"./"` when the
lists are empty; the `Signed-By` line is empty when `signed_by` is `None`. -/
def AptSource.to_deb822 (e : AptSource) : String :=
  let signed_by_line :=
    match e.signed_by with
    | some p => "Signed-By: " ++ p
    | none => ""
  let body :=
    "Types: " ++ (if e.types.isEmpty then "deb" else pyJoin " " e.types) ++ "\n" ++
    "URIs: " ++ pyJoin " " e.uris ++ "\n" ++
    "Suites: " ++ pyJoin " " e.suites ++ "\n" ++
    "Components: " ++ (if e.components.isEmpty then "./" else pyJoin " " e.components) ++ "\n" ++
    signed_by_line ++ "\n"
  pyRstrip body ++ "\n"

/-- Identity normalisers: a concrete `Norms` instance for witnesses, at
which pydantic's URL validation and `pathlib`'s normalisation act as the
identity (true of every URL/path string appearing in the witnesses). -/
def idNorms : Norms := ⟨fun s => some s, fun s => s⟩

/-! ## `craft_archives/repo/package_repository.py`

Construction / unmarshalling of the three repository variants is modelled as
a function from the raw input fields to `Except`.  It mirrors the pydantic
v2 pipeline of the source: the `mode="before"` model validators first, then
per-field validation in field declaration order (each field's type check
followed by its `field_validator`s in their declaration order).  Pydantic
collects errors across fields where this model stops at the first one; the
distinction does not affect acceptance or rejection. -/

/-- Raw value supplied for the `priority` field
(`Optional[Union[int, Literal["always", "prefer", "defer"]]]`). -/
inductive PriorityRaw
  | int (i : Int)
  | str (s : String)
deriving DecidableEq

/-- The `mode="before"` check `priority_cannot_be_zero`:
Python `values.get("priority") == 0`. -/
def priorityIsZero : Option PriorityRaw → Bool
  | some (.int 0) => true
  | _ => false

/-- Pydantic type validation of a supplied `priority` value (int or one of
the three literals) followed by the `_convert_priority_to_int` field
validator, which maps a literal through `PriorityString[value.upper()]`
(ALWAYS = 1000, PREFER = 990, DEFER = 100). -/
def validatePriorityValue (p : PriorityRaw) : Except String Int :=
  match p with
  | .int i => .ok i
  | .str s =>
    if s == "always" || s == "prefer" || s == "defer" then
      if pyUpper s == "ALWAYS" then .ok 1000
      else if pyUpper s == "PREFER" then .ok 990
      else if pyUpper s == "DEFER" then .ok 100
      else .error "invalid priority"
    else .error "Input should be a valid integer or literal"

/-- Validation of the optional `priority` field. -/
def validatePriorityField : Option PriorityRaw → Except String (Option Int)
  | none => .ok none
  | some p => (validatePriorityValue p).map some

/-- Validation of the required `type: Literal["apt"]` field. -/
def validateTypeField : Option String → Except String Unit
  | some "apt" => .ok ()
  | some _ => .error "Input should be 'apt'"
  | none => .error "Field required"

/-- A validated `PackageRepositoryAptPPA`. -/
structure PackageRepositoryAptPPA where
  priority : Option Int := none
  ppa : String
deriving DecidableEq

/-- A validated `PackageRepositoryAptUCA`. -/
structure PackageRepositoryAptUCA where
  priority : Option Int := none
  cloud : String
  pocket : String := "updates"
deriving DecidableEq

/-- A validated `PackageRepositoryApt` (`url` holds the string form of the
validated URL after `_convert_url_to_string`'s `rstrip("/")`). -/
structure PackageRepositoryApt where
  priority : Option Int := none
  url : String
  key_id : String
  architectures : Option (List String) := none
  formats : Option (List String) := none
  path : Option String := none
  components : Option (List String) := none
  key_server : Option String := none
  suites : Option (List String) := none
deriving DecidableEq

/-- Raw input for constructing/unmarshalling a PPA variant (`ppa` and the
required `url`-like fields are modelled as present; a missing required
field is a pydantic error not needed by the claims). -/
structure PpaInput where
  type : Option String := some "apt"
  priority : Option PriorityRaw := none
  ppa : String
deriving DecidableEq

/-- Raw input for constructing/unmarshalling a UCA variant. -/
structure UcaInput where
  type : Option String := some "apt"
  priority : Option PriorityRaw := none
  cloud : String
  pocket : Option String := none
deriving DecidableEq

/-- Raw input for constructing/unmarshalling an Apt variant. -/
structure AptInput where
  type : Option String := some "apt"
  priority : Option PriorityRaw := none
  url : String
  key_id : String
  architectures : Option (List String) := none
  formats : Option (List String) := none
  path : Option String := none
  components : Option (List String) := none
  key_server : Option String := none
  suites : Option (List String) := none
deriving DecidableEq

/-- Construction / `unmarshal` of `PackageRepositoryAptPPA`: the before
validator `priority_cannot_be_zero`, then the fields `type`, `priority`,
`ppa` (`_non_empty_ppa`). -/
def mkPackageRepositoryAptPPA (r : PpaInput) : Except String PackageRepositoryAptPPA :=
  if priorityIsZero r.priority then
    .error "invalid priority: Priority cannot be zero."
  else
    match validateTypeField r.type with
    | .error e => .error e
    | .ok _ =>
      match validatePriorityField r.priority with
      | .error e => .error e
      | .ok p =>
        if r.ppa == "" then .error "Invalid PPA: PPAs must be non-empty strings."
        else .ok { priority := p, ppa := r.ppa }

/-- Validation of the `pocket: Literal["updates", "proposed"] = "updates"`
field. -/
def validatePocketField : Option String → Except String String
  | none => .ok "updates"
  | some p =>
    if p == "updates" || p == "proposed" then .ok p
    else .error "Input should be 'updates' or 'proposed'"

/-- Construction / `unmarshal` of `PackageRepositoryAptUCA`. -/
def mkPackageRepositoryAptUCA (r : UcaInput) : Except String PackageRepositoryAptUCA :=
  if priorityIsZero r.priority then
    .error "invalid priority: Priority cannot be zero."
  else
    match validateTypeField r.type with
    | .error e => .error e
    | .ok _ =>
      match validatePriorityField r.priority with
      | .error e => .error e
      | .ok p =>
        if r.cloud == "" then .error "clouds must be non-empty strings."
        else
          match validatePocketField r.pocket with
          | .error e => .error e
          | .ok pk => .ok { priority := p, cloud := r.cloud, pocket := pk }

/-- Python truthiness of an optional list value from the raw dict. -/
def truthyList (o : Option (List String)) : Bool := !(o.getD []).isEmpty

/-- Python truthiness of an optional string value from the raw dict. -/
def truthyStr (o : Option String) : Bool := !(o.getD "" == "")

/-- The `key_id` constraint: exactly 40 characters matching `[0-9A-F]`. -/
def isUpperHexChar (c : Char) : Bool :=
  (decide ('0' ≤ c) && decide (c ≤ '9')) || (decide ('A' ≤ c) && decide (c ≤ 'F'))

/-- `key_id` field validation (`min_length=40, max_length=40,
pattern=^[0-9A-F]{40}$`). -/
def validKeyId (s : String) : Bool :=
  s.length == 40 && s.data.all isUpperHexChar

/-- Python `str.rstrip("/")`: remove trailing '/' characters. -/
def rstripSlash (s : String) : String :=
  ⟨(s.data.reverse.dropWhile (fun c => c == '/')).reverse⟩

/-- The `formats: Optional[List[Literal["deb", "deb-src"]]]` field check. -/
def validFormats (o : Option (List String)) : Bool :=
  (o.getD []).all (fun t => t == "deb" || t == "deb-src")

/-- Construction / `unmarshal` of `PackageRepositoryApt`: the before
validators `priority_cannot_be_zero` and `_missing_components_or_suites`,
then per-field validation in declaration order — `type`, `priority`, `url`
(pydantic URL validation then `_convert_url_to_string`), `key_id` (the
40-hex-digit constraint), `architectures`, `formats`, `path`
(`_path_non_empty`), `components` (`_not_mixing_components_and_path`),
`key_server`, `suites` (`_not_mixing_suites_and_path` then
`_suites_without_backslash`). -/
def mkPackageRepositoryApt (n : Norms) (r : AptInput) : Except String PackageRepositoryApt :=
  if priorityIsZero r.priority then
    .error "invalid priority: Priority cannot be zero."
  else if truthyList r.suites && !truthyList r.components then
    .error "components must be specified when using suites."
  else if truthyList r.components && !truthyList r.suites then
    .error "suites must be specified when using components."
  else
    match validateTypeField r.type with
    | .error e => .error e
    | .ok _ =>
      match validatePriorityField r.priority with
      | .error e => .error e
      | .ok p =>
        match n.url r.url with
        | none => .error "Input should be a valid URL"
        | some u0 =>
          let u := rstripSlash u0
          if !validKeyId r.key_id then
            .error "String should match pattern [0-9A-F]{40}"
          else if !validFormats r.formats then
            .error "Input should be 'deb' or 'deb-src'"
          else if r.path == some "" then
            .error "Invalid path; Paths must be non-empty strings."
          else if truthyList r.components && truthyStr r.path then
            .error "components cannot be combined with path."
          else if truthyList r.suites && truthyStr r.path then
            .error "suites cannot be combined with path."
          else if (r.suites.getD []).any (fun s => pyEndsWith s "/") then
            .error "invalid suite. Suites must not end with a '/'."
          else
            .ok { priority := p, url := u, key_id := r.key_id,
                  architectures := r.architectures, formats := r.formats,
                  path := r.path, components := r.components,
                  key_server := r.key_server, suites := r.suites }

/-- The union of the three validated variants (`unmarshal` dispatches on the
presence of the `ppa` / `cloud` dict keys). -/
inductive PackageRepository
  | ppa (r : PackageRepositoryAptPPA)
  | uca (r : PackageRepositoryAptUCA)
  | apt (r : PackageRepositoryApt)
deriving DecidableEq

/-! ## `craft_archives/repo/apt_key_manager.py`

The filesystem and the external gpg tool are an explicit environment
(`GpgEnv`).  Exceptions of the missing `errors.py` module
(`AptGPGKeyInstallError`) are modelled as outcome constructors carrying the
same identifying context the source passes to them. -/

/-- The module-level default keyrings directory `_KEYRINGS_PATH`. -/
def KEYRINGS_PATH : String := "/etc/apt/keyrings"

/-- Python `pathlib.PurePath.with_suffix` on a single (relative) file name:
the old suffix starts at the last '.' whose index `i` satisfies
`0 < i < len - 1`; a name without one keeps its text and the new suffix is
appended. -/
def pyWithSuffix (name suf : String) : String :=
  match ((List.range name.data.length).filter
      (fun i => decide (0 < i) && decide (i < name.data.length - 1) &&
        (name.data.getD i ' ' == '.'))).getLast? with
  | some i => ⟨name.data.take i⟩ ++ suf
  | none => name ++ suf

/-- `_get_key_path`:
`base_path.joinpath(prefix + key_id[-8:].upper()).with_suffix(".asc" | ".gpg")`.
`joinpath` is modelled as inserting a single '/' (the joined name is
relative for the key ids of interest). -/
def get_key_path (key_id : String) (is_ascii : Bool) (base_path : String)
    (pfx : String) : String :=
  base_path ++ "/" ++ pyWithSuffix (pfx ++ pyUpper (pySliceLast key_id 8))
    (if is_ascii then ".asc" else ".gpg")

/-- The environment `AptKeyManager` acts in: which paths exist as files,
the exit codes and output of the gpg invocations the class makes, and
`Path.read_text`.  The `ppaKeyId` field is modelled from the spec: it
stands for `apt_ppa.get_launchpad_ppa_key_id` (module not under `src/`),
the PPA resolver returning the signing-key fingerprint for an `owner/name`
identifier. -/
structure GpgEnv where
  files : List String
  listKeysExit : String → String → Nat
  showKeysExit : String → Nat
  showKeysOut : String → List String
  importExit : String → String → Nat
  recvExit : String → String → String → Nat
  readText : String → String
  ppaKeyId : String → String

/-- The generator loop of `_gen_gpg_fingerprints` over the `splitlines` of
the gpg `--show-keys` output: for each line starting with `"pub   "`, with
1-based enumeration index equal to the following line's 0-based position,
read `response[index]` and yield it stripped.  An out-of-range read is
Python's `IndexError`, modelled as `none`. -/
def genFingerprintsAux (response : List String) : List String → Nat → Option (List String)
  | [], _ => some []
  | line :: rest, idx =>
    if pyStartsWith line "pub   " then
      match response.get? idx with
      | none => none
      | some nxt => (genFingerprintsAux response rest (idx + 1)).map (pyStrip nxt :: ·)
    else genFingerprintsAux response rest (idx + 1)

/-- `_gen_gpg_fingerprints`, consumed into a list as in
`get_key_fingerprints`. -/
def gen_gpg_fingerprints (response : List String) : Option (List String) :=
  genFingerprintsAux response response 1

/-- `AptKeyManager.get_key_fingerprints`: write the key material to a scoped
temporary file and extract fingerprints from the gpg `--show-keys` output
(the invocation's exit code is handled by the callers). -/
def get_key_fingerprints (env : GpgEnv) (key : String) : Option (List String) :=
  gen_gpg_fingerprints (env.showKeysOut key)

/-- `AptKeyManager.find_asset_with_key_id`: the asset path derived with an
empty prefix and the `.asc` suffix under the configured assets directory,
if it exists. -/
def find_asset_with_key_id (env : GpgEnv) (key_assets key_id : String) : Option String :=
  let key_path := get_key_path key_id true key_assets ""
  if key_path ∈ env.files then some key_path else none

/-- Result of `is_key_installed`: the returned boolean, whether gpg was
invoked at all, and whether the "Unexpected gpg failure" warning was
logged. -/
structure IsInstalledResult where
  result : Bool
  gpgInvoked : Bool
  unexpectedWarning : Bool
deriving DecidableEq

/-- `AptKeyManager.is_key_installed`: return false without invoking gpg when
the keyring file does not exist (so that gpg does not create it); otherwise
list keys — exit 0 means installed, the expected exit 2 means not present,
and any other nonzero exit logs the unexpected-failure warning; every
failure returns false. -/
def is_key_installed (env : GpgEnv) (key_id : String) (keyring_path : String) :
    IsInstalledResult :=
  let keyring_file := get_key_path key_id false keyring_path "craft-"
  if keyring_file ∈ env.files then
    let rc := env.listKeysExit keyring_file key_id
    if rc == 0 then ⟨true, true, false⟩
    else ⟨false, true, rc != 2⟩
  else ⟨false, false, false⟩

/-- Exceptional or normal completion of the key-install operations
(`AptGPGKeyInstallError` carries the context the source passes:
the key material for `install_key`, the key id and server for
`install_key_from_keyserver`). -/
inductive KeyInstallOutcome
  | ok
  | errKey (message key : String)
  | errServer (message key_id key_server : String)
  | indexError
deriving DecidableEq

/-- Result of an install operation: its outcome, the keyring file gpg was
asked to create/extend, and the chmod calls performed. -/
structure InstallKeyResult where
  outcome : KeyInstallOutcome
  importedKeyring : Option String := none
  chmods : List (String × Nat) := []
deriving DecidableEq

/-- `AptKeyManager.install_key`: extract the fingerprints of the key
material (a gpg failure raises `AptGPGKeyInstallError` carrying the key);
zero fingerprints or more than one raise `AptGPGKeyInstallError` carrying
the key before any import; exactly one leads to a gpg `--import` into the
path derived from the fingerprint under the configured keyrings directory,
followed by `chmod 0o644` of that file. -/
def install_key (env : GpgEnv) (keyrings_path : String) (key : String) : InstallKeyResult :=
  if env.showKeysExit key != 0 then
    { outcome := .errKey "gpg failure" key }
  else
    match gen_gpg_fingerprints (env.showKeysOut key) with
    | none => { outcome := .indexError }
    | some [] => { outcome := .errKey "Invalid GPG key" key }
    | some [fp] =>
      let keyring_path := get_key_path fp false keyrings_path "craft-"
      if env.importExit keyring_path key != 0 then
        { outcome := .errKey "gpg failure" key }
      else
        { outcome := .ok, importedKeyring := some keyring_path,
          chmods := [(keyring_path, 0o644)] }
    | some (_ :: _ :: _) =>
      { outcome := .errKey "Key must be a single key, not multiple." key }

/-- `AptKeyManager.install_key_from_keyserver`: receive `key_id` from
`key_server` into the derived keyring path, then `chmod 0o644`.  (The
scoped temporary gpg home directory and its `0o700` chmod are internal to
the call.)  A gpg failure raises `AptGPGKeyInstallError` carrying the key
id and the server. -/
def install_key_from_keyserver (env : GpgEnv) (keyrings_path key_id key_server : String) :
    InstallKeyResult :=
  let keyring_path := get_key_path key_id false keyrings_path "craft-"
  if env.recvExit keyring_path key_server key_id != 0 then
    { outcome := .errServer "gpg failure" key_id key_server }
  else
    { outcome := .ok, importedKeyring := some keyring_path,
      chmods := [(keyring_path, 0o644)] }

/-- Which install was attempted by `install_package_repository_key`. -/
inductive RepoKeyAction
  | asset (key_path : String)
  | keyserver (key_id key_server : String)
deriving DecidableEq

/-- Completion of `install_package_repository_key`: the unhandled-type
`RuntimeError`, a propagated install exception, or a returned boolean. -/
inductive RepoKeyOutcome
  | runtimeErr
  | raised (e : KeyInstallOutcome)
  | ret (changed : Bool)
deriving DecidableEq

/-- Result of `install_package_repository_key` together with the install
attempt it made, if any. -/
structure RepoKeyResult where
  outcome : RepoKeyOutcome
  action : Option RepoKeyAction := none
deriving DecidableEq

/-- The tail of `install_package_repository_key` after the variant dispatch
has resolved `key_id` and `key_server`.  NOTE (faithful to the source): the
already-installed check is `self.is_key_installed(key_id=key_id)`, whose
`keyring_path` parameter defaults to the module-level `_KEYRINGS_PATH` —
not the manager's configured `keyrings_path`. -/
def installResolved (env : GpgEnv) (keyrings_path key_assets key_id : String)
    (key_server : Option String) : RepoKeyResult :=
  if (is_key_installed env key_id KEYRINGS_PATH).result then
    { outcome := .ret false }
  else
    match find_asset_with_key_id env key_assets key_id with
    | some key_path =>
      let ik := install_key env keyrings_path (env.readText key_path)
      match ik.outcome with
      | .ok => { outcome := .ret true, action := some (.asset key_path) }
      | e => { outcome := .raised e, action := some (.asset key_path) }
    | none =>
      let ks := key_server.getD "keyserver.ubuntu.com"
      let ik := install_key_from_keyserver env keyrings_path key_id ks
      match ik.outcome with
      | .ok => { outcome := .ret true, action := some (.keyserver key_id ks) }
      | e => { outcome := .raised e, action := some (.keyserver key_id ks) }

/-- `AptKeyManager.install_package_repository_key`: a PPA entry resolves its
key id through the PPA resolver with no key server; an Apt entry supplies
its own `key_id` and `key_server`; any other variant (the UCA one) raises
`RuntimeError`. -/
def install_package_repository_key (env : GpgEnv) (keyrings_path key_assets : String)
    (package_repo : PackageRepository) : RepoKeyResult :=
  match package_repo with
  | .uca _ => { outcome := .runtimeErr }
  | .ppa r => installResolved env keyrings_path key_assets (env.ppaKeyId r.ppa) none
  | .apt r => installResolved env keyrings_path key_assets r.key_id r.key_server

/-! ## General helper lemmas -/

theorem except_isOk_iff {ε α : Type} (e : Except ε α) :
    e.isOk = true ↔ ∃ a, e = .ok a := by
  cases e <;> simp [Except.isOk, Except.toBool]

theorem except_error_isOk {ε α : Type} (m : ε) :
    (Except.error m : Except ε α).isOk = false := rfl

/-- A concrete environment with inert defaults, adjusted per witness. -/
def envStub : GpgEnv :=
  { files := [], listKeysExit := fun _ _ => 0, showKeysExit := fun _ => 0,
    showKeysOut := fun _ => [], importExit := fun _ _ => 0,
    recvExit := fun _ _ _ => 0, readText := fun _ => "", ppaKeyId := fun _ => "" }

/-! ## Claim C5 -/

/-- C5: for every key id and keyring directory, `is_key_installed` returns
false without invoking gpg when the derived keyring file does not exist on
disk; when the file exists and the gpg listing exits with the documented
"key not present" code 2 it returns false (and without the
unexpected-failure warning); and for any other nonzero exit code it logs
the warning and still returns false. -/
theorem C5_is_key_installed (env : GpgEnv) (key_id keyring_path : String) :
    (get_key_path key_id false keyring_path "craft-" ∉ env.files →
      is_key_installed env key_id keyring_path = ⟨false, false, false⟩) ∧
    (get_key_path key_id false keyring_path "craft-" ∈ env.files →
      env.listKeysExit (get_key_path key_id false keyring_path "craft-") key_id = 2 →
      is_key_installed env key_id keyring_path = ⟨false, true, false⟩) ∧
    (∀ rc, get_key_path key_id false keyring_path "craft-" ∈ env.files →
      env.listKeysExit (get_key_path key_id false keyring_path "craft-") key_id = rc →
      rc ≠ 0 → rc ≠ 2 →
      is_key_installed env key_id keyring_path = ⟨false, true, true⟩) := by
  refine ⟨fun h => ?_, fun h hrc => ?_, fun rc h hrc h0 h2 => ?_⟩
  · simp [is_key_installed, h]
  · simp [is_key_installed, h, hrc]
  · have hb0 : (rc == 0) = false := by simp [h0]
    have hb2 : (rc != 2) = true := by simp [bne, h2]
    simp [is_key_installed, h, hrc, hb0, hb2]

/-- Environment where the keyring file exists and gpg exits with 2. -/
def envKeyAbsent : GpgEnv :=
  { envStub with files := ["/kr/craft-ABCD1234.gpg"], listKeysExit := fun _ _ => 2 }

/-- Environment where the keyring file exists and gpg exits with 1. -/
def envKeyOdd : GpgEnv :=
  { envStub with files := ["/kr/craft-ABCD1234.gpg"], listKeysExit := fun _ _ => 1 }

/-- C5 witness: the three cases at concrete environments. -/
theorem C5_is_key_installed_witness :
    is_key_installed envStub "abcd1234" "/kr" = ⟨false, false, false⟩ ∧
    is_key_installed envKeyAbsent "abcd1234" "/kr" = ⟨false, true, false⟩ ∧
    is_key_installed envKeyOdd "abcd1234" "/kr" = ⟨false, true, true⟩ :=
  ⟨(C5_is_key_installed envStub "abcd1234" "/kr").1 (by decide),
   (C5_is_key_installed envKeyAbsent "abcd1234" "/kr").2.1 (by decide) rfl,
   (C5_is_key_installed envKeyOdd "abcd1234" "/kr").2.2 1 (by decide) rfl
     (by decide) (by decide)⟩

/-! ## Claim C4 -/

/-- C4 counterexample: `"ppa-missing-slash"` contains no '/' separator, yet
constructing the PPA variant with it succeeds — construction does not
validate the `owner/name` form. -/
theorem C4_counterexample :
    ('/' ∈ "ppa-missing-slash".data → False) ∧
    mkPackageRepositoryAptPPA { type := some "apt", priority := none, ppa := "ppa-missing-slash" } =
      .ok { priority := none, ppa := "ppa-missing-slash" } := by decide

/-- C4 (amended): construction/unmarshalling of the PPA variant rejects only
the empty `ppa` string; any non-empty string — with or without the '/'
separator — is accepted (the `owner/name` form is checked later, at PPA key
resolution, not at construction). -/
theorem C4_ppa_empty_only (r : PpaInput) (s : String) :
    (r.ppa = "" → (mkPackageRepositoryAptPPA r).isOk = false) ∧
    (s ≠ "" → mkPackageRepositoryAptPPA { type := some "apt", priority := none, ppa := s } =
      .ok { priority := none, ppa := s }) := by
  constructor
  · intro h
    unfold mkPackageRepositoryAptPPA
    split
    · rfl
    · split
      · rfl
      · split
        · rfl
        · split
          · rfl
          · simp_all
  · intro hs
    have hbeq : (s == "") = false := by simp [hs]
    simp [mkPackageRepositoryAptPPA, priorityIsZero, validateTypeField,
          validatePriorityField, hbeq]

/-- C4 witness for the amended claim: the empty string is rejected and a
non-empty slash-free string is accepted. -/
theorem C4_ppa_empty_only_witness :
    (mkPackageRepositoryAptPPA { type := some "apt", priority := none, ppa := "" }).isOk = false ∧
    mkPackageRepositoryAptPPA { type := some "apt", priority := none, ppa := "t" } =
      .ok { priority := none, ppa := "t" } :=
  ⟨(C4_ppa_empty_only { type := some "apt", priority := none, ppa := "" } "t").1 rfl,
   (C4_ppa_empty_only { type := some "apt", priority := none, ppa := "" } "t").2 (by decide)⟩

/-! ## Claim C10 -/

/-- C10 counterexample: when the final gpg output line begins with the
public-key marker, the lookahead reads one past the end — an `IndexError`
(modelled `none`) instead of a returned list. -/
theorem C10_counterexample :
    gen_gpg_fingerprints ["pub   0264B26D"] = none ∧
    get_key_fingerprints { envStub with showKeysOut := fun _ => ["pub   0264B26D"] } "key" =
      none := by decide

theorem genFingerprintsAux_isSome (response : List String) :
    ∀ (rest : List String) (idx : Nat),
      (∀ j, j < rest.length → pyStartsWith (rest.getD j "") "pub   " = true →
        idx + j < response.length) →
      (genFingerprintsAux response rest idx).isSome = true := by
  intro rest
  induction rest with
  | nil => intro idx _; simp [genFingerprintsAux]
  | cons line rest ih =>
    intro idx h
    have h' : ∀ j, j < rest.length → pyStartsWith (rest.getD j "") "pub   " = true →
        idx + 1 + j < response.length := by
      intro j hj hpj
      have hgd : (line :: rest).getD (j + 1) "" = rest.getD j "" := by
        simp [List.getD]
      have h2 := h (j + 1) (by simp only [List.length_cons]; omega)
        (by rw [hgd]; exact hpj)
      omega
    simp only [genFingerprintsAux]
    by_cases hps : pyStartsWith line "pub   " = true
    · rw [if_pos hps]
      have hidx : idx < response.length := by
        have hgd : (line :: rest).getD 0 "" = line := by simp [List.getD]
        have := h 0 (by simp) (by rw [hgd]; exact hps)
        omega
      cases hg : response.get? idx with
      | none =>
        exact absurd (List.get?_eq_none.mp hg) (by omega)
      | some nxt =>
        have hrec := ih (idx + 1) h'
        simpa using hrec
    · rw [if_neg hps]
      exact ih (idx + 1) h'

/-- C10 (amended): the fingerprint extractor stays within bounds — and
`get_key_fingerprints` returns a (possibly empty) list — whenever the final
output line does not begin with `"pub   "`; when the final line does begin
with the marker, the lookahead read is out of range and the extraction
fails with an `IndexError`. -/
theorem C10_fingerprints_in_range (response : List String)
    (h : ∀ l, response.getLast? = some l → pyStartsWith l "pub   " = false) :
    (gen_gpg_fingerprints response).isSome = true := by
  unfold gen_gpg_fingerprints
  apply genFingerprintsAux_isSome
  intro j hj hpj
  rcases Nat.lt_or_ge (1 + j) response.length with hlt | hge
  · exact hlt
  · exfalso
    have hj' : j = response.length - 1 := by omega
    have hget : response.get? j = some (response.getD j "") := by
      rw [List.getD_eq_getElem?_getD, ← List.get?_eq_getElem?]
      cases hg : response.get? j with
      | none => exact absurd (List.get?_eq_none.mp hg) (by omega)
      | some x => rfl
    have hlast : response.getLast? = some (response.getD j "") := by
      rw [List.getLast?_eq_getElem?, ← List.get?_eq_getElem?, ← hj']
      exact hget
    have := h _ hlast
    rw [this] at hpj
    exact Bool.false_ne_true hpj

/-- C10 witness: a well-formed two-line output is extracted without an
out-of-range access. -/
theorem C10_fingerprints_in_range_witness :
    (gen_gpg_fingerprints ["pub   rsa4096", "  0264B26D  "]).isSome = true :=
  C10_fingerprints_in_range ["pub   rsa4096", "  0264B26D  "] (by decide)

/-! ## Claim C1 -/

/-- A failing environment for C1: the resolved key's keyring file exists in
the manager's configured keyrings directory `/custom` (and gpg confirms
it), but not in the module default `/etc/apt/keyrings`. -/
def envC1 : GpgEnv := { envStub with files := ["/custom/craft-2E99AABB.gpg"] }

/-- C1 (code bug): with the key already installed in the manager's
configured keyrings directory `/custom`, `install_package_repository_key`
still performs a keyserver install and returns True, because its
already-installed check consults the module default `/etc/apt/keyrings`
instead of the configured directory. -/
theorem C1_install_checks_default_dir :
    (is_key_installed envC1 "123456789012345678901234567890122E99AABB" "/custom").result = true ∧
    (is_key_installed envC1 "123456789012345678901234567890122E99AABB" KEYRINGS_PATH).result = false ∧
    install_package_repository_key envC1 "/custom" "/assets"
        (.apt { url := "http://archive.ubuntu.com/ubuntu",
                key_id := "123456789012345678901234567890122E99AABB" }) =
      { outcome := .ret true,
        action := some (.keyserver "123456789012345678901234567890122E99AABB"
          "keyserver.ubuntu.com") } := by decide

/-! ## Claims C6 and C7: construction characterisation lemmas -/

theorem mkPPA_ok_priority {r : PpaInput} {x : PackageRepositoryAptPPA}
    (h : mkPackageRepositoryAptPPA r = .ok x) :
    validatePriorityField r.priority = .ok x.priority := by
  unfold mkPackageRepositoryAptPPA at h
  split at h
  · simp at h
  · split at h
    · simp at h
    · split at h
      · simp at h
      · split at h
        · simp at h
        · injection h with h2
          subst h2
          assumption

theorem mkUCA_ok_priority {r : UcaInput} {x : PackageRepositoryAptUCA}
    (h : mkPackageRepositoryAptUCA r = .ok x) :
    validatePriorityField r.priority = .ok x.priority := by
  unfold mkPackageRepositoryAptUCA at h
  split at h
  · simp at h
  · split at h
    · simp at h
    · split at h
      · simp at h
      · split at h
        · simp at h
        · split at h
          · simp at h
          · injection h with h2
            subst h2
            assumption

theorem mkApt_ok_facts {n : Norms} {r : AptInput} {x : PackageRepositoryApt}
    (h : mkPackageRepositoryApt n r = .ok x) :
    validatePriorityField r.priority = .ok x.priority ∧
    ¬(truthyList r.suites = true ∧ truthyList r.components = false) ∧
    ¬(truthyList r.components = true ∧ truthyList r.suites = false) ∧
    r.path ≠ some "" ∧
    ¬(truthyList r.components = true ∧ truthyStr r.path = true) ∧
    ¬(truthyList r.suites = true ∧ truthyStr r.path = true) ∧
    (∀ s ∈ r.suites.getD [], pyEndsWith s "/" = false) := by
  unfold mkPackageRepositoryApt at h
  repeat' split at h
  all_goals try simp at h
  have hsc : ¬(truthyList r.suites && !truthyList r.components) = true := by assumption
  have hcs : ¬(truthyList r.components && !truthyList r.suites) = true := by assumption
  have hkey : ¬(r.path == some "") = true := by assumption
  have hcp : ¬(truthyList r.components && truthyStr r.path) = true := by assumption
  have hsp : ¬(truthyList r.suites && truthyStr r.path) = true := by assumption
  have hsl : ¬((r.suites.getD []).any fun s => pyEndsWith s "/") = true := by assumption
  subst h
  simp only [Bool.and_eq_true, Bool.not_eq_true'] at hsc hcs hcp hsp
  refine ⟨by assumption, hsc, hcs, ?_, hcp, hsp, ?_⟩
  · simpa using hkey
  · intro s hs
    by_contra hcon
    exact hsl (List.any_eq_true.mpr ⟨s, hs, by simpa using hcon⟩)

/-- A 40-character uppercase-hex key id used in concrete inputs. -/
def hex40 : String := "AAAAAAAAAAAAAAAAAAAAAAAAAAAAAAAAAAAAAAAA"

/-- Concrete PPA raw input with a given priority. -/
def ppaIn (p : Option PriorityRaw) : PpaInput :=
  { type := some "apt", priority := p, ppa := "x/y" }

/-- Concrete UCA raw input with a given priority. -/
def ucaIn (p : Option PriorityRaw) : UcaInput :=
  { type := some "apt", priority := p, cloud := "antelope", pocket := none }

/-- Concrete Apt raw input with a given priority. -/
def aptIn (p : Option PriorityRaw) : AptInput :=
  { type := some "apt", priority := p, url := "http://a/b", key_id := hex40, suites := some ["x"], components := some ["main"] }

/-- C6: for every repository-entry variant, a raw `priority` equal to the
integer zero is rejected at construction/unmarshal; the string values
`"always"`, `"prefer"` and `"defer"` are accepted and stored as the
integers 1000, 990 and 100 respectively. -/
theorem C6_priority_zero_and_aliases :
    (∀ r : PpaInput, r.priority = some (.int 0) →
      (mkPackageRepositoryAptPPA r).isOk = false) ∧
    (∀ r : UcaInput, r.priority = some (.int 0) →
      (mkPackageRepositoryAptUCA r).isOk = false) ∧
    (∀ (n : Norms) (r : AptInput), r.priority = some (.int 0) →
      (mkPackageRepositoryApt n r).isOk = false) ∧
    (∀ (s : String) (v : Int),
      (s, v) ∈ [("always", (1000 : Int)), ("prefer", (990 : Int)), ("defer", (100 : Int))] →
      (∀ (r : PpaInput) (x : PackageRepositoryAptPPA), r.priority = some (.str s) →
        mkPackageRepositoryAptPPA r = .ok x → x.priority = some v) ∧
      (∀ (r : UcaInput) (x : PackageRepositoryAptUCA), r.priority = some (.str s) →
        mkPackageRepositoryAptUCA r = .ok x → x.priority = some v) ∧
      (∀ (n : Norms) (r : AptInput) (x : PackageRepositoryApt), r.priority = some (.str s) →
        mkPackageRepositoryApt n r = .ok x → x.priority = some v) ∧
      mkPackageRepositoryAptPPA (ppaIn (some (.str s))) =
        .ok { priority := some v, ppa := "x/y" } ∧
      mkPackageRepositoryAptUCA (ucaIn (some (.str s))) =
        .ok { priority := some v, cloud := "antelope", pocket := "updates" } ∧
      mkPackageRepositoryApt idNorms (aptIn (some (.str s))) =
        .ok { priority := some v, url := "http://a/b", key_id := hex40, suites := some ["x"], components := some ["main"] }) := by
  refine ⟨?_, ?_, ?_, ?_⟩
  · intro r h
    unfold mkPackageRepositoryAptPPA
    rw [if_pos (by rw [h]; rfl)]
    rfl
  · intro r h
    unfold mkPackageRepositoryAptUCA
    rw [if_pos (by rw [h]; rfl)]
    rfl
  · intro n r h
    unfold mkPackageRepositoryApt
    rw [if_pos (by rw [h]; rfl)]
    rfl
  · intro s v hsv
    have cases3 : (s = "always" ∧ v = 1000) ∨ (s = "prefer" ∧ v = 990) ∨
        (s = "defer" ∧ v = 100) := by
      simpa [Prod.ext_iff] using hsv
    have main : ∀ (s : String) (v : Int), validatePriorityValue (.str s) = .ok v →
        (∀ (r : PpaInput) (x : PackageRepositoryAptPPA), r.priority = some (.str s) →
          mkPackageRepositoryAptPPA r = .ok x → x.priority = some v) ∧
        (∀ (r : UcaInput) (x : PackageRepositoryAptUCA), r.priority = some (.str s) →
          mkPackageRepositoryAptUCA r = .ok x → x.priority = some v) ∧
        (∀ (n : Norms) (r : AptInput) (x : PackageRepositoryApt), r.priority = some (.str s) →
          mkPackageRepositoryApt n r = .ok x → x.priority = some v) := by
      intro s v hval
      refine ⟨fun r x hp hok => ?_, fun r x hp hok => ?_, fun n r x hp hok => ?_⟩
      · have := mkPPA_ok_priority hok
        rw [hp] at this
        simp only [validatePriorityField, hval] at this
        injection this with h2
        exact h2.symm
      · have := mkUCA_ok_priority hok
        rw [hp] at this
        simp only [validatePriorityField, hval] at this
        injection this with h2
        exact h2.symm
      · have := (mkApt_ok_facts hok).1
        rw [hp] at this
        simp only [validatePriorityField, hval] at this
        injection this with h2
        exact h2.symm
    rcases cases3 with ⟨rfl, rfl⟩ | ⟨rfl, rfl⟩ | ⟨rfl, rfl⟩ <;>
      exact ⟨(main _ _ (by decide)).1, (main _ _ (by decide)).2.1,
        (main _ _ (by decide)).2.2, by decide, by decide, by decide⟩

/-- C6 witness: zero rejected and each alias accepted/stored, at concrete
inputs. -/
theorem C6_priority_zero_and_aliases_witness :
    (mkPackageRepositoryAptPPA (ppaIn (some (.int 0)))).isOk = false ∧
    (mkPackageRepositoryAptUCA (ucaIn (some (.int 0)))).isOk = false ∧
    (mkPackageRepositoryApt idNorms (aptIn (some (.int 0)))).isOk = false ∧
    mkPackageRepositoryAptPPA (ppaIn (some (.str "prefer"))) =
      .ok { priority := some 990, ppa := "x/y" } :=
  ⟨(C6_priority_zero_and_aliases.1 _ rfl),
   (C6_priority_zero_and_aliases.2.1 _ rfl),
   (C6_priority_zero_and_aliases.2.2.1 idNorms _ rfl),
   (C6_priority_zero_and_aliases.2.2.2 "prefer" 990 (by decide)).2.2.2.1⟩

/-- C7: for every Apt-variant construction input, supplying `path` together
with a non-empty `suites` list (or with non-empty `components`) is
rejected; non-empty `suites` without `components` (or vice versa) is
rejected; and any suite string ending with '/' is rejected. -/
theorem C7_apt_field_conflicts (n : Norms) (r : AptInput) :
    (r.path ≠ none → truthyList r.suites = true →
      (mkPackageRepositoryApt n r).isOk = false) ∧
    (r.path ≠ none → truthyList r.components = true →
      (mkPackageRepositoryApt n r).isOk = false) ∧
    (truthyList r.suites = true → truthyList r.components = false →
      (mkPackageRepositoryApt n r).isOk = false) ∧
    (truthyList r.components = true → truthyList r.suites = false →
      (mkPackageRepositoryApt n r).isOk = false) ∧
    (∀ l s, r.suites = some l → s ∈ l → pyEndsWith s "/" = true →
      (mkPackageRepositoryApt n r).isOk = false) := by
  have keyFact : ∀ P : Prop,
      ((∀ x, mkPackageRepositoryApt n r = .ok x → False) → P → P) := fun _ _ p => p
  have notOk : ∀ (contra : ∀ x, mkPackageRepositoryApt n r = .ok x → False),
      (mkPackageRepositoryApt n r).isOk = false := by
    intro contra
    cases hok : (mkPackageRepositoryApt n r).isOk
    · rfl
    · obtain ⟨a, ha⟩ := (except_isOk_iff _).mp hok
      exact absurd ha (fun h => contra a h)
  clear keyFact
  refine ⟨fun hp hs => notOk ?_, fun hp hc => notOk ?_, fun hs hc => notOk ?_,
          fun hc hs => notOk ?_, fun l s hl hs hsl => notOk ?_⟩ <;> intro x hok
  · obtain ⟨-, -, -, hpne, -, hsp, -⟩ := mkApt_ok_facts hok
    obtain ⟨p, hpv⟩ := Option.ne_none_iff_exists'.mp hp
    by_cases hpe : p = ""
    · exact hpne (by rw [hpv, hpe])
    · exact hsp ⟨hs, by simp [truthyStr, hpv, hpe]⟩
  · obtain ⟨-, -, -, hpne, hcp, -, -⟩ := mkApt_ok_facts hok
    obtain ⟨p, hpv⟩ := Option.ne_none_iff_exists'.mp hp
    by_cases hpe : p = ""
    · exact hpne (by rw [hpv, hpe])
    · exact hcp ⟨hc, by simp [truthyStr, hpv, hpe]⟩
  · exact (mkApt_ok_facts hok).2.1 ⟨hs, hc⟩
  · exact (mkApt_ok_facts hok).2.2.1 ⟨hc, hs⟩
  · have := (mkApt_ok_facts hok).2.2.2.2.2.2 s (by rw [hl]; simpa using hs)
    rw [this] at hsl
    exact Bool.false_ne_true hsl

/-- C7 witness: the rejections at concrete inputs. -/
theorem C7_apt_field_conflicts_witness :
    (mkPackageRepositoryApt idNorms { aptIn none with path := some "p" }).isOk = false ∧
    (mkPackageRepositoryApt idNorms { aptIn none with components := none }).isOk = false ∧
    (mkPackageRepositoryApt idNorms { aptIn none with suites := none }).isOk = false ∧
    (mkPackageRepositoryApt idNorms { aptIn none with suites := some ["x/"] }).isOk = false :=
  ⟨(C7_apt_field_conflicts idNorms _).1 (by decide) (by decide),
   (C7_apt_field_conflicts idNorms _).2.2.1 (by decide) (by decide),
   (C7_apt_field_conflicts idNorms _).2.2.2.1 (by decide) (by decide),
   (C7_apt_field_conflicts idNorms _).2.2.2.2 ["x/"] "x/" rfl (by decide) (by decide)⟩

/-! ## Claim C3 -/

theorem pyWithSuffix_no_dot {name : String} (h : '.' ∉ name.data) (suf : String) :
    pyWithSuffix name suf = name ++ suf := by
  unfold pyWithSuffix
  have hfil : (List.range name.data.length).filter
      (fun i => decide (0 < i) && decide (i < name.data.length - 1) &&
        (name.data.getD i ' ' == '.')) = [] := by
    rw [List.filter_eq_nil]
    intro i hi
    simp only [Bool.and_eq_true, decide_eq_true_eq, beq_iff_eq, not_and]
    intro ha hdot
    have hilt : i < name.data.length := List.mem_range.mp hi
    rw [List.getD_eq_getElem _ _ hilt] at hdot
    exact h (hdot ▸ List.getElem_mem hilt)
  rw [hfil]
  rfl

/-- C3: with the gpg inspection succeeding, `install_key` on key material
whose fingerprint extraction yields zero or at least two fingerprints
raises a key-install error carrying the key material, without creating any
keyring file; on exactly one fingerprint (a dot-free name, as hex
fingerprints are) it has gpg create the keyring file at
`<keyrings dir>/craft-<last 8 chars uppercased>.gpg` and sets its
permission bits to `0o644`. -/
theorem C3_install_key (env : GpgEnv) (keyrings key : String)
    (hgpg : env.showKeysExit key = 0) :
    ((get_key_fingerprints env key = some [] ∨
      (∃ a b l, get_key_fingerprints env key = some (a :: b :: l))) →
      ∃ m, install_key env keyrings key =
        { outcome := .errKey m key, importedKeyring := none, chmods := [] }) ∧
    (∀ fp, get_key_fingerprints env key = some [fp] →
      '.' ∉ ("craft-" ++ pyUpper (pySliceLast fp 8)).data →
      env.importExit (keyrings ++ "/" ++ ("craft-" ++ pyUpper (pySliceLast fp 8) ++ ".gpg")) key = 0 →
      install_key env keyrings key =
        { outcome := .ok,
          importedKeyring := some (keyrings ++ "/" ++ ("craft-" ++ pyUpper (pySliceLast fp 8) ++ ".gpg")),
          chmods := [(keyrings ++ "/" ++ ("craft-" ++ pyUpper (pySliceLast fp 8) ++ ".gpg"), 0o644)] }) := by
  have hexit : (env.showKeysExit key != 0) = false := by simp [hgpg]
  constructor
  · rintro (hfp | ⟨a, b, l, hfp⟩)
    · have hfp' : gen_gpg_fingerprints (env.showKeysOut key) = some [] := hfp
      exact ⟨"Invalid GPG key", by simp [install_key, hexit, hfp']⟩
    · have hfp' : gen_gpg_fingerprints (env.showKeysOut key) = some (a :: b :: l) := hfp
      exact ⟨"Key must be a single key, not multiple.", by simp [install_key, hexit, hfp']⟩
  · intro fp hfp hdot himp
    have hfp' : gen_gpg_fingerprints (env.showKeysOut key) = some [fp] := hfp
    have hpath : get_key_path fp false keyrings "craft-" =
        keyrings ++ "/" ++ ("craft-" ++ pyUpper (pySliceLast fp 8) ++ ".gpg") := by
      unfold get_key_path
      rw [pyWithSuffix_no_dot hdot]
      rfl
    have himp' : (env.importExit (get_key_path fp false keyrings "craft-") key != 0) = false := by
      rw [hpath]
      simp [himp]
    simp [install_key, hexit, hfp', himp', hpath, himp]

/-- Environment whose gpg inspection reports two keys. -/
def envTwoKeys : GpgEnv :=
  { envStub with showKeysOut := fun _ => ["pub   x", "AFP", "pub   y", "BFP"] }

/-- Environment whose gpg inspection reports exactly one key. -/
def envOneKey : GpgEnv :=
  { envStub with showKeysOut := fun _ => ["pub   x", "  ABCD1234EF567890  "] }

/-- C3 witness: the multi-key error and the single-key install at concrete
environments. -/
theorem C3_install_key_witness :
    (∃ m, install_key envTwoKeys "/kr" "KEY" =
      { outcome := .errKey m "KEY", importedKeyring := none, chmods := [] }) ∧
    install_key envOneKey "/kr" "KEY" =
      { outcome := .ok,
        importedKeyring := some ("/kr" ++ "/" ++ ("craft-" ++ pyUpper (pySliceLast "ABCD1234EF567890" 8) ++ ".gpg")),
        chmods := [("/kr" ++ "/" ++ ("craft-" ++ pyUpper (pySliceLast "ABCD1234EF567890" 8) ++ ".gpg"), 0o644)] } :=
  ⟨(C3_install_key envTwoKeys "/kr" "KEY" rfl).1 (Or.inr ⟨"AFP", "BFP", [], by decide⟩),
   (C3_install_key envOneKey "/kr" "KEY" rfl).2 "ABCD1234EF567890" (by decide) (by decide) rfl⟩

/-! ## Claim C9 -/

theorem processDeb822Line_multi_uri (d : Deb822Dict) {line f v : String}
    (hc : pyStartsWith (pyStrip line) "#" = false)
    (hp : pyPartition (pyStrip line) ": " = (f, ": ", v))
    (hf : f = "URIs") (hlen : 1 < (pySplitWs v).length) :
    processDeb822Line d line =
      .error "deb822 paragraphs with multiple URIs are unsupported." := by
  subst hf
  unfold processDeb822Line
  rw [hc]
  simp only [Bool.false_eq_true, if_false, hp]
  unfold processDeb822Field
  rw [if_neg (by decide), if_pos (by decide), if_pos hlen]

theorem foldProcess_append_err (pre : List String) :
    ∀ (d : Deb822Dict) (line : String) (post : List String),
      (∀ d', ∃ e', processDeb822Line d' line = .error e') →
      ∃ e, foldProcess d (pre ++ line :: post) = .error e := by
  induction pre with
  | nil =>
    intro d line post h
    obtain ⟨e', he⟩ := h d
    exact ⟨e', by simp [foldProcess, he]⟩
  | cons l pre ih =>
    intro d line post h
    cases hres : processDeb822Line d l with
    | error e => exact ⟨e, by simp [foldProcess, hres]⟩
    | ok d' =>
      obtain ⟨e, he⟩ := ih d' line post h
      exact ⟨e, by simp [foldProcess, hres, he]⟩

/-- C9: a deb822 paragraph containing a non-comment line whose partitioned
field is `URIs` with more than one whitespace-separated value fails to
parse with an error, wherever the line occurs; a paragraph with exactly one
URI value parses successfully (other fields permitting). -/
theorem C9_deb822_multi_uri (n : Norms) (pre post : List String) (line f v : String)
    (hc : pyStartsWith (pyStrip line) "#" = false)
    (hp : pyPartition (pyStrip line) ": " = (f, ": ", v))
    (hf : f = "URIs") (hlen : 1 < (pySplitWs v).length) :
    (from_deb822_paragraph n (pre ++ line :: post)).isOk = false ∧
    from_deb822_paragraph idNorms
        ["Types: deb", "URIs: http://e/x", "Suites: s", "Components: c"] =
      .ok (some { types := ["deb"], uris := ["http://e/x"], suites := ["s"],
                  components := ["c"] }) := by
  constructor
  · obtain ⟨e, he⟩ := foldProcess_append_err pre {} line post
      (fun d' => ⟨_, processDeb822Line_multi_uri d' hc hp hf hlen⟩)
    simp [from_deb822_paragraph, he, except_error_isOk]
  · decide

/-- C9 witness: a concrete two-URI line fails. -/
theorem C9_deb822_multi_uri_witness :
    (from_deb822_paragraph idNorms ["URIs: http://a http://b"]).isOk = false :=
  (C9_deb822_multi_uri idNorms [] [] "URIs: http://a http://b" "URIs" "http://a http://b"
    (by decide) (by decide) rfl (by decide)).1

/-! ## Claim C8 -/

theorem flatMap2_length (U T : List String) (f : String → String → String) :
    (U.flatMap fun u => T.map (f u)).length = U.length * T.length := by
  induction U with
  | nil => simp
  | cons u us ih =>
    simp only [List.flatMap_cons, List.length_append, List.length_map, ih,
      List.length_cons]
    ring

theorem flatMap3_length (S U T : List String) (f : String → String → String → String) :
    (S.flatMap fun su => U.flatMap fun u => T.map (f su u)).length =
      T.length * U.length * S.length := by
  induction S with
  | nil => simp
  | cons s ss ih =>
    simp only [List.flatMap_cons, List.length_append, ih, List.length_cons,
      flatMap2_length]
    ring

theorem flatMap3_mem (S U T : List String) (f : String → String → String → String)
    (line : String) :
    line ∈ (S.flatMap fun su => U.flatMap fun u => T.map (f su u)) ↔
      ∃ t ∈ T, ∃ u ∈ U, ∃ su ∈ S, line = f su u t := by
  simp only [List.mem_flatMap, List.mem_map]
  constructor
  · rintro ⟨su, hsu, u, hu, t, ht, rfl⟩
    exact ⟨t, ht, u, hu, su, hsu, rfl⟩
  · rintro ⟨t, ht, u, hu, su, hsu, rfl⟩
    exact ⟨su, hsu, u, hu, t, ht, rfl⟩

/-- C8: `to_sources_list` emits exactly one line
`"<type> <uri> <suite> <components or 'main'>"` per combination of the
Cartesian product of types, uris and suites — its length is the product of
the three lengths and its members are exactly the formatted combinations —
and an entry with 2 types, 2 uris and 2 suites produces exactly 8 lines. -/
theorem C8_to_sources_list_cartesian :
    (∀ e : AptSource,
      (AptSource.to_sources_list e).length =
        e.types.length * e.uris.length * e.suites.length ∧
      ∀ line, line ∈ AptSource.to_sources_list e ↔
        ∃ t ∈ e.types, ∃ u ∈ e.uris, ∃ su ∈ e.suites,
          line = t ++ " " ++ u ++ " " ++ su ++ " " ++
            (if e.components.isEmpty then "main" else pyJoin " " e.components)) ∧
    (AptSource.to_sources_list { types := ["deb", "deb-src"], uris := ["http://u1", "http://u2"], suites := ["s1", "s2"], components := ["c"] }).length = 8 := by
  refine ⟨fun e => ⟨?_, fun line => ?_⟩, by decide⟩
  · simp only [AptSource.to_sources_list]
    exact flatMap3_length e.suites e.uris e.types _
  · simp only [AptSource.to_sources_list]
    exact flatMap3_mem e.suites e.uris e.types _ line

/-! ## Claim C2: character-level lemma library -/

@[simp] theorem stringMk_data (s : String) : String.mk s.data = s := by
  cases s
  rfl

theorem lb_is_ws {c : Char} (h : pyIsLineBreak c = true) : pyIsSpace c = true := by
  simp only [pyIsLineBreak, List.mem_cons, List.not_mem_nil, or_false,
    decide_eq_true_eq] at h
  simp only [pyIsSpace, List.mem_cons, List.not_mem_nil, or_false, decide_eq_true_eq]
  rcases h with h | h | h | h | h | h | h | h | h | h <;> rw [h] <;> norm_num

theorem takeWhile_all {p : Char → Bool} {w : List Char}
    (h : ∀ c ∈ w, p c = true) : w.takeWhile p = w := by
  induction w with
  | nil => rfl
  | cons c cs ih =>
    rw [List.takeWhile_cons, if_pos (h c (by simp))]
    rw [ih (fun x hx => h x (by simp [hx]))]

theorem takeWhile_append_stop {p : Char → Bool} {w : List Char} {b : Char}
    (hw : ∀ c ∈ w, p c = true) (hb : p b = false) (l : List Char) :
    (w ++ b :: l).takeWhile p = w := by
  induction w with
  | nil =>
    rw [List.nil_append, List.takeWhile_cons, if_neg (by simp [hb])]
  | cons c cs ih =>
    rw [List.cons_append, List.takeWhile_cons, if_pos (hw c (by simp))]
    rw [ih (fun x hx => hw x (by simp [hx]))]

theorem dropWhile_append_stop {p : Char → Bool} {w : List Char} {b : Char}
    (hw : ∀ c ∈ w, p c = true) (hb : p b = false) (l : List Char) :
    (w ++ b :: l).dropWhile p = b :: l := by
  induction w with
  | nil =>
    rw [List.nil_append, List.dropWhile_cons, if_neg (by simp [hb])]
  | cons c cs ih =>
    rw [List.cons_append, List.dropWhile_cons, if_pos (hw c (by simp))]
    exact ih (fun x hx => hw x (by simp [hx]))

theorem dropWhile_cons_of_false {p : Char → Bool} {c : Char} (l : List Char)
    (h : p c = false) : (c :: l).dropWhile p = c :: l := by
  rw [List.dropWhile_cons, if_neg (by simp [h])]

/-- Join whitespace-free words with single spaces, at character level
(the `data` of `pyJoin " "`). -/
def joinChars : List (List Char) → List Char
  | [] => []
  | [w] => w
  | w :: x :: rest => w ++ ' ' :: joinChars (x :: rest)

theorem pyJoin_space_data (l : List String) :
    (pyJoin " " l).data = joinChars (l.map String.data) := by
  induction l with
  | nil => rfl
  | cons x xs ih =>
    cases xs with
    | nil => rfl
    | cons y ys =>
      show (x ++ " " ++ pyJoin " " (y :: ys)).data = _
      rw [String.data_append, String.data_append, ih]
      show x.data ++ [' '] ++ _ = _
      rw [List.append_assoc]
      rfl

/-- A word and a token list: every word is non-empty and whitespace-free. -/
def CleanWords (L : List (List Char)) : Prop :=
  ∀ w ∈ L, w ≠ [] ∧ ∀ c ∈ w, pyIsSpace c = false

theorem splitWsAux_word_shift {w : List Char}
    (hw : ∀ c ∈ w, pyIsSpace c = false) (cs acc : List Char) :
    splitWsAux (w ++ cs) acc = splitWsAux cs (w.reverse ++ acc) := by
  induction w generalizing acc with
  | nil => simp
  | cons c w' ih =>
    rw [List.cons_append]
    show splitWsAux (c :: (w' ++ cs)) acc = _
    rw [splitWsAux]
    rw [if_neg (by simp [hw c (by simp)])]
    rw [ih (fun x hx => hw x (by simp [hx])) (c :: acc)]
    rw [List.reverse_cons, List.append_assoc]
    rfl

theorem splitWsAux_space_emit (cs acc : List Char) (hacc : acc ≠ []) :
    splitWsAux (' ' :: cs) acc = acc.reverse :: splitWsAux cs [] := by
  rw [splitWsAux]
  rw [if_pos (by decide)]
  rw [if_neg (by simpa using hacc)]

theorem pySplitWsCore_join {L : List (List Char)} (h : CleanWords L) :
    pySplitWsCore (joinChars L) = L := by
  induction L with
  | nil => rfl
  | cons w rest ih =>
    cases rest with
    | nil =>
      show pySplitWsCore (joinChars [w]) = [w]
      obtain ⟨hne, hcl⟩ := h w (by simp)
      show splitWsAux w [] = [w]
      rw [← List.append_nil w, splitWsAux_word_shift hcl [] []]
      rw [splitWsAux]
      rw [if_neg (by simpa using (by simpa using hne : w.reverse ≠ []))]
      simp
    | cons x rest' =>
      obtain ⟨hne, hcl⟩ := h w (by simp)
      show splitWsAux (w ++ ' ' :: joinChars (x :: rest')) [] = w :: (x :: rest')
      rw [splitWsAux_word_shift hcl _ []]
      rw [List.append_nil]
      rw [splitWsAux_space_emit _ _ (by simpa using hne)]
      rw [List.reverse_reverse]
      have := ih (fun v hv => h v (by simp [hv]))
      exact congrArg (w :: ·) this

/-- String-level join/split round trip for clean tokens. -/
theorem pySplitWs_join {l : List String}
    (h : ∀ s ∈ l, s.data ≠ [] ∧ ∀ c ∈ s.data, pyIsSpace c = false) :
    pySplitWs (pyJoin " " l) = l := by
  unfold pySplitWs
  rw [pyJoin_space_data]
  rw [pySplitWsCore_join (by
    intro w hw
    obtain ⟨s, hs, rfl⟩ := List.mem_map.mp hw
    exact h s hs)]
  rw [List.map_map]
  have hcomp : (String.mk ∘ String.data) = id := funext fun s => stringMk_data s
  rw [hcomp, List.map_id]

theorem splitWsAux_tokens (cs : List Char) :
    ∀ acc, (∀ c ∈ acc, pyIsSpace c = false) →
      ∀ w ∈ splitWsAux cs acc, w ≠ [] ∧ ∀ c ∈ w, pyIsSpace c = false := by
  induction cs with
  | nil =>
    intro acc hacc w hw
    rw [splitWsAux] at hw
    split at hw
    · simp at hw
    · next hne =>
      simp only [List.mem_singleton] at hw
      subst hw
      exact ⟨by simpa using hne, fun c hc => hacc c (by simpa using hc)⟩
  | cons c cs ih =>
    intro acc hacc w hw
    rw [splitWsAux] at hw
    split at hw
    · split at hw
      · exact ih [] (by simp) w hw
      · next hne =>
        rcases List.mem_cons.mp hw with rfl | hw'
        · exact ⟨by simpa using hne, fun x hx => hacc x (by simpa using hx)⟩
        · exact ih [] (by simp) w hw'
    · next hc =>
      exact ih (c :: acc) (by
        intro x hx
        rcases List.mem_cons.mp hx with rfl | hx'
        · simpa using hc
        · exact hacc x hx') w hw

theorem pySplitWs_tokens (s : String) :
    ∀ w ∈ pySplitWs s, w.data ≠ [] ∧ ∀ c ∈ w.data, pyIsSpace c = false := by
  intro w hw
  obtain ⟨v, hv, rfl⟩ := List.mem_map.mp hw
  exact splitWsAux_tokens s.data [] (by simp) v hv

theorem splitWsAux_ne_nil (cs : List Char) :
    ∀ acc, (∃ c ∈ cs, pyIsSpace c = false) ∨ acc ≠ [] →
      splitWsAux cs acc ≠ [] := by
  induction cs with
  | nil =>
    intro acc h
    rcases h with ⟨c, hc, _⟩ | hacc
    · simp at hc
    · rw [splitWsAux, if_neg (by simpa using hacc)]
      simp
  | cons c cs ih =>
    intro acc h
    rw [splitWsAux]
    split
    · next hcs =>
      split
      · next hacc =>
        apply ih []
        left
        rcases h with ⟨x, hx, hxw⟩ | hne
        · rcases List.mem_cons.mp hx with rfl | hx'
          · rw [hcs] at hxw
            simp at hxw
          · exact ⟨x, hx', hxw⟩
        · exact absurd (by simpa using hacc) hne
      · simp
    · next hc =>
      apply ih (c :: acc)
      right
      simp

theorem nextWord_ws_cons {c : Char} (h : pyIsSpace c = true) (cs : List Char) :
    nextWord (c :: cs) = nextWord cs := by
  unfold nextWord
  rw [List.dropWhile_cons, if_pos (by simp [h])]

theorem nextWord_word {x : Char} {t : List Char} (hx : pyIsSpace x = false)
    (hcl : ∀ c ∈ t, pyIsSpace c = false) (rest : List Char) :
    nextWord (x :: (t ++ ' ' :: rest)) = some (x :: t, ' ' :: rest) := by
  have h1 : (x :: (t ++ ' ' :: rest)).takeWhile (fun c => !pyIsSpace c) = x :: t := by
    rw [List.takeWhile_cons, if_pos (by simp [hx])]
    rw [takeWhile_append_stop (fun c hc => by simp [hcl c hc]) (by decide)]
  have h2 : (x :: (t ++ ' ' :: rest)).dropWhile (fun c => !pyIsSpace c) = ' ' :: rest := by
    rw [List.dropWhile_cons, if_pos (by simp [hx])]
    rw [dropWhile_append_stop (fun c hc => by simp [hcl c hc]) (by decide)]
  unfold nextWord
  rw [dropWhile_cons_of_false _ hx]
  show some (_, _) = _
  rw [h1, h2]

theorem maxcore_zero (cs : List Char) :
    pySplitWsMaxCore 0 cs =
      if (cs.dropWhile pyIsSpace).isEmpty then [] else [cs.dropWhile pyIsSpace] := rfl

theorem maxcore_succ (n : Nat) (cs : List Char) :
    pySplitWsMaxCore (n + 1) cs =
      match nextWord cs with
      | none => []
      | some (w, rest) => w :: pySplitWsMaxCore n rest := rfl

theorem maxcore_ws_cons {c : Char} (h : pyIsSpace c = true) (n : Nat) (cs : List Char) :
    pySplitWsMaxCore n (c :: cs) = pySplitWsMaxCore n cs := by
  have hdw : (c :: cs).dropWhile pyIsSpace = cs.dropWhile pyIsSpace := by
    rw [List.dropWhile_cons, if_pos (by simp [h])]
  cases n with
  | zero => rw [maxcore_zero, maxcore_zero, hdw]
  | succ n => rw [maxcore_succ, maxcore_succ, nextWord_ws_cons h]

theorem maxcore_succ_word {x : Char} {t : List Char} (hx : pyIsSpace x = false)
    (hcl : ∀ c ∈ t, pyIsSpace c = false) (n : Nat) (rest : List Char) :
    pySplitWsMaxCore (n + 1) (x :: (t ++ ' ' :: rest)) =
      (x :: t) :: pySplitWsMaxCore n rest := by
  rw [maxcore_succ, nextWord_word hx hcl rest]
  show (x :: t) :: pySplitWsMaxCore n (' ' :: rest) = _
  rw [maxcore_ws_cons (by decide) n rest]

theorem maxcore_zero_word {x : Char} (t : List Char) (hx : pyIsSpace x = false) :
    pySplitWsMaxCore 0 (x :: t) = [x :: t] := by
  rw [maxcore_zero, dropWhile_cons_of_false _ hx]
  rfl

theorem rstrip_append_last {xs : List Char} {b : Char} (hb : pyIsSpace b = false) :
    rstripChars (xs ++ [b]) = xs ++ [b] := by
  unfold rstripChars
  rw [show (xs ++ [b]).reverse = b :: xs.reverse by simp]
  rw [dropWhile_cons_of_false _ hb]
  simp

theorem rstrip_newline (xs : List Char) : rstripChars (xs ++ ['\n']) = rstripChars xs := by
  unfold rstripChars
  rw [show (xs ++ ['\n']).reverse = '\n' :: xs.reverse by simp]
  rw [List.dropWhile_cons, if_pos (by decide)]

theorem rstrip_eq_self {l : List Char}
    (h : ∀ c, l.getLast? = some c → pyIsSpace c = false) : rstripChars l = l := by
  unfold rstripChars
  cases hl : l.reverse with
  | nil =>
    have : l = [] := by simpa using congrArg List.reverse hl
    subst this
    simp
  | cons y ys =>
    have hy : l.getLast? = some y := by
      rw [← List.head?_reverse, hl]
      rfl
    rw [dropWhile_cons_of_false _ (h y hy), ← hl]
    simp

theorem strip_eq_self {l : List Char}
    (h1 : ∀ c, l.head? = some c → pyIsSpace c = false)
    (h2 : ∀ c, l.getLast? = some c → pyIsSpace c = false) :
    stripChars l = l := by
  cases l with
  | nil => rfl
  | cons x xs =>
    unfold stripChars lstripChars
    rw [dropWhile_cons_of_false _ (h1 x rfl)]
    exact rstrip_eq_self h2

theorem strip_last_nonws (l : List Char) :
    ∀ c, (stripChars l).getLast? = some c → pyIsSpace c = false := by
  intro c hc
  unfold stripChars rstripChars at hc
  rw [← List.head?_reverse, List.reverse_reverse] at hc
  cases hd : (lstripChars l).reverse.dropWhile pyIsSpace with
  | nil => rw [hd] at hc; simp at hc
  | cons y ys =>
    rw [hd] at hc
    cases hc
    exact dropWhile_head_false hd

theorem strip_mem_subset (l : List Char) : ∀ c ∈ stripChars l, c ∈ l := by
  intro c hc
  unfold stripChars rstripChars lstripChars at hc
  rw [List.mem_reverse] at hc
  have h1 := (List.dropWhile_sublist _ (l := (l.dropWhile pyIsSpace).reverse)).subset hc
  rw [List.mem_reverse] at h1
  exact (List.dropWhile_sublist _ (l := l)).subset h1

theorem getLast?_append_right {b : List Char} (hb : b ≠ []) (a : List Char) :
    (a ++ b).getLast? = b.getLast? := by
  induction a with
  | nil => rfl
  | cons x a' ih =>
    cases hab : a' ++ b with
    | nil => exact absurd (List.append_eq_nil.mp hab).2 hb
    | cons z zs =>
      rw [List.cons_append, hab, List.getLast?_cons_cons, ← hab, ih]

theorem findSub_at_colon {pre : List Char} (rest : List Char) (h : ':' ∉ pre) :
    findSub (pre ++ ':' :: ' ' :: rest) [':', ' '] = some (pre, rest) := by
  induction pre with
  | nil =>
    show findSub (':' :: ' ' :: rest) [':', ' '] = _
    unfold findSub
    rw [if_pos (by simp [List.isPrefixOf])]
    rfl
  | cons c pre' ih =>
    have hc : c ≠ ':' := fun hh => h (by simp [hh])
    have hpre : ':' ∉ pre' := fun hh => h (by simp [hh])
    show findSub (c :: (pre' ++ ':' :: ' ' :: rest)) [':', ' '] = _
    unfold findSub
    rw [if_neg (by simp [List.isPrefixOf, Ne.symm hc])]
    show Option.map (fun p => (c :: p.1, p.2)) (findSub (pre' ++ ':' :: ' ' :: rest) [':', ' ']) = _
    rw [ih hpre]
    rfl

theorem isPrefixOf_decomp : ∀ {l cs : List Char}, l.isPrefixOf cs = true →
    ∃ k, cs = l ++ k := by
  intro l
  induction l with
  | nil => exact fun h => ⟨_, rfl⟩
  | cons a l' ih =>
    intro cs h
    cases cs with
    | nil => simp [List.isPrefixOf] at h
    | cons c t =>
      rw [List.isPrefixOf, Bool.and_eq_true, beq_iff_eq] at h
      obtain ⟨k, hk⟩ := ih h.2
      exact ⟨k, by rw [h.1, hk]; rfl⟩

theorem findSub_decomp : ∀ {cs sep b a : List Char},
    findSub cs sep = some (b, a) → cs = b ++ sep ++ a := by
  intro cs
  induction cs with
  | nil =>
    intro sep b a h
    unfold findSub at h
    split at h
    · next hpre =>
      have : sep = [] := by
        cases sep with
        | nil => rfl
        | cons x xs =>
          obtain ⟨k, hk⟩ := isPrefixOf_decomp hpre
          simp at hk
      subst this
      simp only [List.length_nil, List.drop_nil, Option.some.injEq, Prod.mk.injEq] at h
      obtain ⟨rfl, rfl⟩ := h
      rfl
    · simp at h
  | cons c t ih =>
    intro sep b a h
    unfold findSub at h
    split at h
    · next hpre =>
      obtain ⟨k, hk⟩ := isPrefixOf_decomp hpre
      simp only [Option.some.injEq, Prod.mk.injEq] at h
      obtain ⟨rfl, rfl⟩ := h
      rw [List.nil_append, hk, List.drop_left]
    · have h' : Option.map (fun p => (c :: p.1, p.2)) (findSub t sep) = some (b, a) := h
      cases hfs : findSub t sep with
      | none => rw [hfs] at h'; simp at h'
      | some ba =>
        obtain ⟨b', a'⟩ := ba
        rw [hfs] at h'
        simp only [Option.map_some', Option.some.injEq, Prod.mk.injEq] at h'
        obtain ⟨rfl, rfl⟩ := h'
        rw [ih hfs]
        rfl

theorem pyPartition_build {f val : String} (hf : ':' ∉ f.data) :
    pyPartition (f ++ ": " ++ val) ": " = (f, ": ", val) := by
  unfold pyPartition
  have hdata : (f ++ ": " ++ val).data = f.data ++ ':' :: ' ' :: val.data := by
    rw [String.data_append, String.data_append]
    show f.data ++ [':', ' '] ++ val.data = _
    rw [List.append_assoc]
    rfl
  rw [show (": " : String).data = [':', ' '] from rfl, hdata, findSub_at_colon _ hf]

theorem partition_value_facts (line : String) :
    (∀ c, ((pyPartition (pyStrip line) ": ").2.2).data.getLast? = some c →
      pyIsSpace c = false) ∧
    (∀ c ∈ ((pyPartition (pyStrip line) ": ").2.2).data, c ∈ line.data) := by
  unfold pyPartition
  cases hfs : findSub (pyStrip line).data (": " : String).data with
  | none =>
    constructor
    · intro c hc
      simp at hc
    · intro c hc
      simp at hc
  | some ba =>
    obtain ⟨b, a⟩ := ba
    have hdec := findSub_decomp hfs
    constructor
    · intro c hc
      cases ha : a with
      | nil =>
        rw [ha] at hc
        simp at hc
      | cons y ys =>
        apply strip_last_nonws line.data c
        have hlast : (pyStrip line).data.getLast? = some c := by
          rw [hdec, getLast?_append_right (by rw [ha]; simp) _]
          exact hc
        exact hlast
    · intro c hc
      have hmem : c ∈ (pyStrip line).data := by
        rw [hdec]
        simp only [List.mem_append]
        right
        exact hc
      exact strip_mem_subset line.data c hmem

theorem splitlines_cons_line {l : List Char} (h : ∀ c ∈ l, pyIsLineBreak c = false)
    (rest : List Char) : ∀ acc,
    splitlinesAux (l ++ '\n' :: rest) acc = (acc.reverse ++ l) :: splitlinesAux rest [] := by
  induction l with
  | nil =>
    intro acc
    cases rest with
    | nil =>
      show (if pyIsLineBreak '\n' then [acc.reverse] else [('\n' :: acc).reverse]) = _
      rw [if_pos (by decide)]
      show _ = (acc.reverse ++ []) :: (if ([] : List Char).isEmpty then [] else [([] : List Char).reverse])
      simp
    | cons r2 rrest =>
      show (if ('\n' = '\r' && r2 = '\n') = true then acc.reverse :: splitlinesAux rrest []
            else if pyIsLineBreak '\n' then acc.reverse :: splitlinesAux (r2 :: rrest) []
            else splitlinesAux (r2 :: rrest) ('\n' :: acc)) = _
      rw [if_neg (by simp), if_pos (by decide)]
      simp
  | cons c l' ih =>
    intro acc
    have hc : pyIsLineBreak c = false := h c (by simp)
    have hcr : (c = '\r') = False := by
      simp only [eq_iff_iff, iff_false]
      intro hh
      rw [hh] at hc
      exact absurd hc (by decide)
    cases hsh : l' ++ '\n' :: rest with
    | nil => simp at hsh
    | cons d ds =>
      show splitlinesAux (c :: (l' ++ '\n' :: rest)) acc = _
      rw [hsh, splitlinesAux]
      rw [if_neg (by simp [hcr]), if_neg (by simp [hc]), ← hsh]
      rw [ih (fun x hx => h x (by simp [hx])) (c :: acc)]
      rw [List.reverse_cons, List.append_assoc]
      rfl

theorem splitlines_concat (lines : List (List Char))
    (h : ∀ l ∈ lines, ∀ c ∈ l, pyIsLineBreak c = false) :
    splitlinesAux (lines.flatMap (fun l => l ++ ['\n'])) [] = lines := by
  induction lines with
  | nil => rfl
  | cons l ls ih =>
    rw [List.flatMap_cons]
    rw [show (l ++ ['\n']) ++ ls.flatMap (fun l => l ++ ['\n']) =
        l ++ '\n' :: ls.flatMap (fun l => l ++ ['\n']) by simp]
    rw [splitlines_cons_line (h l (by simp)) _ []]
    rw [ih (fun x hx => h x (by simp [hx]))]
    rfl

/-! ## Claim C2: the one-line direction -/

/-- A non-empty whitespace-free string. -/
def cleanStr (s : String) : Prop :=
  s.data ≠ [] ∧ ∀ c ∈ s.data, pyIsSpace c = false

/-- Properties of the external normalisers that pydantic's URL types and
`pathlib.Path` satisfy: URL validation is idempotent and produces non-empty
whitespace-free strings; `str(Path(·))` is idempotent, never empty, and
preserves freedom from trailing whitespace and from line-break
characters. -/
structure GoodNorms (n : Norms) : Prop where
  url_idem : ∀ s t, n.url s = some t → n.url t = some t
  url_clean : ∀ s t, n.url s = some t → cleanStr t
  path_idem : ∀ s, n.path (n.path s) = n.path s
  path_ne : ∀ s, (n.path s).data ≠ []
  path_trail : ∀ s, (∀ c, s.data.getLast? = some c → pyIsSpace c = false) →
    ∀ c, (n.path s).data.getLast? = some c → pyIsSpace c = false
  path_lb : ∀ s, (∀ c ∈ s.data, pyIsLineBreak c = false) →
    ∀ c ∈ (n.path s).data, pyIsLineBreak c = false

/-- Concrete normalisers satisfying `GoodNorms`: URLs validate when
whitespace-free and non-empty and are kept verbatim (true of every URL
pydantic accepts in the witnesses); paths are kept verbatim except that the
empty string becomes `"."` (as `str(Path(""))` does). -/
def stubUrl (s : String) : Option String :=
  if s.data ≠ [] ∧ ∀ c ∈ s.data, pyIsSpace c = false then some s else none

def stubPath (s : String) : String := if s = "" then "." else s

def stubNorms : Norms := ⟨stubUrl, stubPath⟩

theorem stubNorms_good : GoodNorms stubNorms := by
  constructor
  · intro s t h
    replace h : stubUrl s = some t := h
    show stubUrl t = some t
    unfold stubUrl at *
    split at h
    · cases h
      rw [if_pos (by assumption)]
    · simp at h
  · intro s t h
    replace h : stubUrl s = some t := h
    unfold stubUrl at h
    split at h
    · cases h
      assumption
    · simp at h
  · intro s
    show stubPath (stubPath s) = stubPath s
    unfold stubPath
    split
    · next hs =>
      subst hs
      rfl
    · rfl
  · intro s
    show (stubPath s).data ≠ []
    unfold stubPath
    split
    · decide
    · next hs =>
      intro hd
      exact hs (by cases s; simp_all)
  · intro s hs
    show ∀ c, (stubPath s).data.getLast? = some c → pyIsSpace c = false
    unfold stubPath
    split
    · intro c hc
      have hce : '.' = c := by simpa using hc
      subst hce
      decide
    · exact hs
  · intro s hs
    show ∀ c ∈ (stubPath s).data, pyIsLineBreak c = false
    unfold stubPath
    split
    · intro c hc
      have hce : c = '.' := by simpa using hc
      subst hce
      decide
    · exact hs

theorem data_mk (l : List Char) : (String.mk l).data = l := rfl

theorem map_mk_inv {l : List (List Char)} {L : List String}
    (h : l.map String.mk = L) : l = L.map String.data := by
  have hmap := congrArg (List.map String.data) h
  rw [List.map_map] at hmap
  have hcomp : (String.data ∘ String.mk) = id := funext fun x => rfl
  rw [hcomp, List.map_id] at hmap
  exact hmap

theorem nextWord_props {cs w rest : List Char} (h : nextWord cs = some (w, rest)) :
    w ≠ [] ∧ ∀ c ∈ w, pyIsSpace c = false := by
  unfold nextWord at h
  cases hd : cs.dropWhile pyIsSpace with
  | nil => rw [hd] at h; simp at h
  | cons x t =>
    rw [hd] at h
    simp only [Option.some.injEq, Prod.mk.injEq] at h
    obtain ⟨hw, -⟩ := h
    have hx : pyIsSpace x = false := dropWhile_head_false hd
    rw [List.takeWhile_cons, if_pos (by simp [hx])] at hw
    constructor
    · rw [← hw]; simp
    · intro c hc
      rw [← hw] at hc
      rcases List.mem_cons.mp hc with rfl | hc'
      · exact hx
      · have := List.mem_takeWhile_imp hc'
        simpa using this

theorem maxsplit4_words {data t u su rest : String}
    (h : pySplitWsMax data 3 = [t, u, su, rest]) :
    cleanStr t ∧ cleanStr u ∧ cleanStr su ∧
    (∃ y ys, rest.data = y :: ys ∧ pyIsSpace y = false) := by
  unfold pySplitWsMax at h
  have hcore : pySplitWsMaxCore 3 data.data = [t.data, u.data, su.data, rest.data] :=
    map_mk_inv h
  rw [maxcore_succ] at hcore
  cases h1 : nextWord data.data with
  | none => rw [h1] at hcore; simp at hcore
  | some wr1 =>
    obtain ⟨w1, r1⟩ := wr1
    rw [h1] at hcore
    simp only [List.cons.injEq] at hcore
    obtain ⟨hw1, hcore⟩ := hcore
    rw [maxcore_succ] at hcore
    cases h2 : nextWord r1 with
    | none => rw [h2] at hcore; simp at hcore
    | some wr2 =>
      obtain ⟨w2, r2⟩ := wr2
      rw [h2] at hcore
      simp only [List.cons.injEq] at hcore
      obtain ⟨hw2, hcore⟩ := hcore
      rw [maxcore_succ] at hcore
      cases h3 : nextWord r2 with
      | none => rw [h3] at hcore; simp at hcore
      | some wr3 =>
        obtain ⟨w3, r3⟩ := wr3
        rw [h3] at hcore
        simp only [List.cons.injEq] at hcore
        obtain ⟨hw3, hcore⟩ := hcore
        rw [maxcore_zero] at hcore
        split at hcore
        · simp at hcore
        · next hne =>
          simp only [List.cons.injEq, and_true] at hcore
          refine ⟨?_, ?_, ?_, ?_⟩
          · have hp := nextWord_props h1
            rw [hw1] at hp
            exact hp
          · have hp := nextWord_props h2
            rw [hw2] at hp
            exact hp
          · have hp := nextWord_props h3
            rw [hw3] at hp
            exact hp
          · cases hd : r3.dropWhile pyIsSpace with
            | nil => rw [hd] at hne; simp at hne
            | cons y ys =>
              refine ⟨y, ys, ?_, dropWhile_head_false hd⟩
              rw [← hcore, hd]

theorem model_validate_ok_inv {n : Norms} {ts us ss cs : List String}
    {sb : Option String} {ar : Option (List String)} {e : AptSource}
    (h : AptSource.model_validate n (some ts) (some us) (some ss) (some cs) sb ar = .ok e) :
    validTypes ts = true ∧ ∃ us2, validateUrls n us = some us2 ∧
      e = { types := ts, uris := us2, suites := ss, components := cs,
            signed_by := sb.map n.path, architectures := ar } := by
  have h' : (if validTypes ts then
      match validateUrls n us with
      | some us2 =>
        Except.ok { types := ts, uris := us2, suites := ss, components := cs,
                    signed_by := sb.map n.path, architectures := ar }
      | none => (Except.error "Input should be a valid URL" : Except String AptSource)
    else Except.error "Input should be 'deb' or 'deb-src'") = .ok e := h
  split at h'
  · next hvt =>
    cases hus : validateUrls n us with
    | none => rw [hus] at h'; simp at h'
    | some us2 =>
      rw [hus] at h'
      injection h' with h2
      exact ⟨hvt, us2, rfl, h2.symm⟩
  · simp at h'

theorem model_validate_compute {n : Norms} {ts us ss cs : List String} {us2 : List String}
    (sb : Option String) (ar : Option (List String))
    (hvt : validTypes ts = true) (hus : validateUrls n us = some us2) :
    AptSource.model_validate n (some ts) (some us) (some ss) (some cs) sb ar =
      .ok { types := ts, uris := us2, suites := ss, components := cs,
            signed_by := sb.map n.path, architectures := ar } := by
  show (if validTypes ts then
      match validateUrls n us with
      | some us2 =>
        Except.ok { types := ts, uris := us2, suites := ss, components := cs,
                    signed_by := sb.map n.path, architectures := ar }
      | none => (Except.error "Input should be a valid URL" : Except String AptSource)
    else Except.error "Input should be 'deb' or 'deb-src'") = _
  rw [if_pos hvt, hus]

theorem validateUrls_single {n : Norms} {u0 : String} {l : List String}
    (h : validateUrls n [u0] = some l) : ∃ u, n.url u0 = some u ∧ l = [u] := by
  unfold validateUrls at h
  cases hu : n.url u0 with
  | none => rw [hu] at h; simp at h
  | some u =>
    rw [hu] at h
    refine ⟨u, rfl, ?_⟩
    have : (validateUrls n []).map (u :: ·) = some l := h
    simp only [show validateUrls n [] = some [] from rfl, Option.map_some'] at this
    injection this with h2
    exact h2.symm

theorem validateUrls_single_fixed {n : Norms} {u : String} (h : n.url u = some u) :
    validateUrls n [u] = some [u] := by
  unfold validateUrls
  rw [h]
  rfl

theorem from_sources_list_line_inv {n : Norms} {data : String} {e : AptSource}
    (h : from_sources_list_line n data = .ok e) :
    ∃ t u0 su rest u,
      pySplitWsMax data 3 = [t, u0, su, rest] ∧
      validTypes [t] = true ∧ n.url u0 = some u ∧
      e = { types := [t], uris := [u], suites := [su],
            components := pySplitWs rest, signed_by := none, architectures := none } := by
  unfold from_sources_list_line at h
  split at h
  · next t u0 su rest heq =>
    obtain ⟨hvt, us2, hus, he⟩ := model_validate_ok_inv h
    obtain ⟨u, hu, hl⟩ := validateUrls_single hus
    subst hl
    exact ⟨t, u0, su, rest, u, heq, hvt, hu, by simpa using he⟩
  · simp at h

/-- The serialized one-line form of a singleton entry. -/
theorem to_sources_list_singleton {e : AptSource} {t u su : String}
    (ht : e.types = [t]) (hu : e.uris = [u]) (hs : e.suites = [su]) :
    AptSource.to_sources_list e =
      [t ++ " " ++ u ++ " " ++ su ++ " " ++
        (if e.components.isEmpty then "main" else pyJoin " " e.components)] := by
  unfold AptSource.to_sources_list
  rw [ht, hu, hs]
  rfl

theorem strAppend_assoc (a b c : String) : a ++ b ++ c = a ++ (b ++ c) := by
  apply String.ext
  rw [String.data_append, String.data_append, String.data_append, String.data_append,
    List.append_assoc]

theorem data_space_sep (a b : String) : (a ++ " " ++ b).data = a.data ++ ' ' :: b.data := by
  rw [String.data_append, String.data_append]
  show a.data ++ [' '] ++ b.data = _
  rw [List.append_assoc]
  rfl

theorem joinChars_cons_decomp (w : List Char) (L : List (List Char)) :
    ∃ k, joinChars (w :: L) = w ++ k := by
  cases L with
  | nil => exact ⟨[], by simp [joinChars]⟩
  | cons x xs => exact ⟨' ' :: joinChars (x :: xs), rfl⟩

theorem pyJoin_head_shape {l : List String} (hne : l ≠ [])
    (hcl : ∀ s ∈ l, cleanStr s) :
    ∃ y ys, (pyJoin " " l).data = y :: ys ∧ pyIsSpace y = false := by
  obtain ⟨w, L, rfl⟩ := List.exists_cons_of_ne_nil hne
  rw [pyJoin_space_data]
  obtain ⟨k, hk⟩ := joinChars_cons_decomp w.data (L.map String.data)
  show ∃ y ys, joinChars (w.data :: L.map String.data) = y :: ys ∧ pyIsSpace y = false
  rw [hk]
  obtain ⟨hne', hclw⟩ := hcl w (by simp)
  obtain ⟨y, ys, hy⟩ := List.exists_cons_of_ne_nil hne'
  refine ⟨y, ys ++ k, by rw [hy]; rfl, hclw y (by rw [hy]; simp)⟩

/-- Re-splitting the serialized one-line form recovers the four fields. -/
theorem reparse_line {t u su : String} {comps : List String}
    (ht : cleanStr t) (hu : cleanStr u) (hsu : cleanStr su)
    (hne : comps ≠ []) (hcl : ∀ s ∈ comps, cleanStr s) :
    pySplitWsMax (t ++ " " ++ u ++ " " ++ su ++ " " ++ pyJoin " " comps) 3 =
      [t, u, su, pyJoin " " comps] := by
  have hgrp : t ++ " " ++ u ++ " " ++ su ++ " " ++ pyJoin " " comps =
      t ++ " " ++ (u ++ " " ++ (su ++ " " ++ pyJoin " " comps)) := by
    apply String.ext
    simp [String.data_append, List.append_assoc]
  unfold pySplitWsMax
  rw [hgrp]
  have hdata : (t ++ " " ++ (u ++ " " ++ (su ++ " " ++ pyJoin " " comps))).data =
      t.data ++ ' ' :: (u.data ++ ' ' :: (su.data ++ ' ' :: (pyJoin " " comps).data)) := by
    rw [data_space_sep, data_space_sep, data_space_sep]
  rw [hdata]
  obtain ⟨x1, t1, hx1⟩ := List.exists_cons_of_ne_nil ht.1
  obtain ⟨x2, t2, hx2⟩ := List.exists_cons_of_ne_nil hu.1
  obtain ⟨x3, t3, hx3⟩ := List.exists_cons_of_ne_nil hsu.1
  rw [hx1, List.cons_append]
  rw [maxcore_succ_word (ht.2 x1 (by rw [hx1]; simp))
    (fun c hc => ht.2 c (by rw [hx1]; simp [hc])) 2 _]
  rw [hx2, List.cons_append]
  rw [maxcore_succ_word (hu.2 x2 (by rw [hx2]; simp))
    (fun c hc => hu.2 c (by rw [hx2]; simp [hc])) 1 _]
  rw [hx3, List.cons_append]
  rw [maxcore_succ_word (hsu.2 x3 (by rw [hx3]; simp))
    (fun c hc => hsu.2 c (by rw [hx3]; simp [hc])) 0 _]
  obtain ⟨y, ys, hy, hyws⟩ := pyJoin_head_shape hne hcl
  rw [hy, maxcore_zero_word ys hyws]
  rw [← hy, ← hx1, ← hx2, ← hx3]
  rfl

theorem pySplitWs_ne_nil {s : String} {y : Char} {ys : List Char}
    (hyd : s.data = y :: ys) (hyws : pyIsSpace y = false) : pySplitWs s ≠ [] := by
  unfold pySplitWs
  simp only [ne_eq, List.map_eq_nil_iff]
  exact splitWsAux_ne_nil s.data [] (Or.inl ⟨y, by rw [hyd]; simp, hyws⟩)

/-- One-line round trip: an entry parsed from a sources.list line serializes
to a single line which parses back to the identical entry. -/
theorem oneline_roundtrip {n : Norms} (hn : GoodNorms n) {data : String} {e : AptSource}
    (h : from_sources_list_line n data = .ok e) :
    ∃ l, AptSource.to_sources_list e = [l] ∧ from_sources_list_line n l = .ok e := by
  obtain ⟨t, u0, su, rest, u, hsplit, hvt, hurl, he⟩ := from_sources_list_line_inv h
  obtain ⟨htc, hu0c, hsuc, y, ys, hyd, hyws⟩ := maxsplit4_words hsplit
  have huc : cleanStr u := hn.url_clean _ _ hurl
  have hufix : n.url u = some u := hn.url_idem _ _ hurl
  have hcomps_ne : pySplitWs rest ≠ [] := pySplitWs_ne_nil hyd hyws
  have hcomps_cl : ∀ w ∈ pySplitWs rest, w.data ≠ [] ∧ ∀ c ∈ w.data, pyIsSpace c = false :=
    pySplitWs_tokens rest
  subst he
  refine ⟨t ++ " " ++ u ++ " " ++ su ++ " " ++ pyJoin " " (pySplitWs rest), ?_, ?_⟩
  · rw [to_sources_list_singleton rfl rfl rfl]
    rw [if_neg (by simpa [List.isEmpty_iff] using hcomps_ne)]
  · unfold from_sources_list_line
    rw [reparse_line htc huc hsuc hcomps_ne (fun s hs => hcomps_cl s hs)]
    show AptSource.model_validate n (some [t]) (some [u]) (some [su])
        (some (pySplitWs (pyJoin " " (pySplitWs rest)))) none none = _
    rw [pySplitWs_join (fun s hs => hcomps_cl s hs)]
    exact model_validate_compute none none hvt (validateUrls_single_fixed hufix)

/-! ## Claim C2: the deb822 direction -/

/-- Invariant of the deb822 dict along the line loop: every assigned
token-list field holds whitespace-free non-empty tokens, an assigned `uris`
holds at most one, and an assigned `signed_by` value has no trailing
whitespace and, when the lines are free of line-break characters, none
either. -/
def DictInv (d : Deb822Dict) : Prop :=
  (∀ ts, d.types = some ts → ∀ s ∈ ts, cleanStr s) ∧
  (∀ us, d.uris = some us → us.length ≤ 1 ∧ ∀ s ∈ us, cleanStr s) ∧
  (∀ ss, d.suites = some ss → ∀ s ∈ ss, cleanStr s) ∧
  (∀ cs, d.components = some cs → ∀ s ∈ cs, cleanStr s) ∧
  (∀ v, d.signed_by = some v →
    (∀ c, v.data.getLast? = some c → pyIsSpace c = false) ∧
    (∀ c ∈ v.data, pyIsLineBreak c = false))

theorem dictInv_init : DictInv {} := by
  refine ⟨?_, ?_, ?_, ?_, ?_⟩ <;> intro x hx <;> simp at hx

theorem cleanStr_of_token {v s : String} (h : s ∈ pySplitWs v) : cleanStr s :=
  pySplitWs_tokens v s h

theorem processDeb822Field_inv {d d' : Deb822Dict} {f v : String}
    (hlast : ∀ c, v.data.getLast? = some c → pyIsSpace c = false)
    (hlb : ∀ c ∈ v.data, pyIsLineBreak c = false)
    (h : processDeb822Field d f v = .ok d') (hd : DictInv d) : DictInv d' := by
  obtain ⟨h1, h2, h3, h4, h5⟩ := hd
  unfold processDeb822Field at h
  split at h
  · injection h with he
    subst he
    exact ⟨fun ts hts => by
        have := Option.some.inj hts
        subst this
        intro s hs
        exact cleanStr_of_token hs,
      h2, h3, h4, h5⟩
  · split at h
    · split at h
      · simp at h
      · next hlen =>
        injection h with he
        subst he
        refine ⟨h1, fun us hus => ?_, h3, h4, h5⟩
        have := Option.some.inj hus
        subst this
        exact ⟨by omega, fun s hs => cleanStr_of_token hs⟩
    · split at h
      · injection h with he
        subst he
        exact ⟨h1, h2, fun ss hss => by
            have := Option.some.inj hss
            subst this
            intro s hs
            exact cleanStr_of_token hs,
          h4, h5⟩
      · split at h
        · injection h with he
          subst he
          exact ⟨h1, h2, h3, fun cs hcs => by
              have := Option.some.inj hcs
              subst this
              intro s hs
              exact cleanStr_of_token hs,
            h5⟩
        · split at h
          · injection h with he
            subst he
            exact ⟨h1, h2, h3, h4, h5⟩
          · split at h
            · injection h with he
              subst he
              refine ⟨h1, h2, h3, h4, fun w hw => ?_⟩
              have := Option.some.inj hw
              subst this
              exact ⟨hlast, hlb⟩
            · split at h
              · injection h with he
                subst he
                exact ⟨h1, h2, h3, h4, h5⟩
              · injection h with he
                subst he
                exact ⟨h1, h2, h3, h4, h5⟩

theorem processDeb822Line_inv {d d' : Deb822Dict} {line : String}
    (hlb : ∀ c ∈ line.data, pyIsLineBreak c = false)
    (h : processDeb822Line d line = .ok d') (hd : DictInv d) : DictInv d' := by
  unfold processDeb822Line at h
  split at h
  · injection h with he
    subst he
    exact hd
  · obtain ⟨hvlast, hvmem⟩ := partition_value_facts line
    exact processDeb822Field_inv hvlast (fun c hc => hlb c (hvmem c hc)) h hd

theorem foldProcess_inv : ∀ (lines : List String) (d d' : Deb822Dict),
    (∀ l ∈ lines, ∀ c ∈ l.data, pyIsLineBreak c = false) →
    foldProcess d lines = .ok d' → DictInv d → DictInv d' := by
  intro lines
  induction lines with
  | nil =>
    intro d d' _ h hd
    injection h with he
    subst he
    exact hd
  | cons l ls ih =>
    intro d d' hlb h hd
    unfold foldProcess at h
    split at h
    · simp at h
    · next d2 hstep =>
      exact ih d2 d' (fun x hx => hlb x (by simp [hx]))
        h (processDeb822Line_inv (hlb l (by simp)) hstep hd)

theorem model_validate_ok_fields {n : Norms} {ts us ss cs : Option (List String)}
    {sb : Option String} {ar : Option (List String)} {e : AptSource}
    (h : AptSource.model_validate n ts us ss cs sb ar = .ok e) :
    ∃ ts' us' ss' cs', ts = some ts' ∧ us = some us' ∧ ss = some ss' ∧ cs = some cs' := by
  cases ts <;> cases us <;> cases ss <;> cases cs <;>
    first
      | exact ⟨_, _, _, _, rfl, rfl, rfl, rfl⟩
      | (exfalso; revert h; unfold AptSource.model_validate; simp)

/-- What parsing a deb822 paragraph successfully says about the entry, given
lines free of line-break characters (true of lines produced by
`splitlines`). -/
theorem from_deb822_paragraph_inv {n : Norms} (hn : GoodNorms n)
    {lines : List String} {e : AptSource}
    (hlb : ∀ l ∈ lines, ∀ c ∈ l.data, pyIsLineBreak c = false)
    (h : from_deb822_paragraph n lines = .ok (some e)) :
    (∀ s ∈ e.types, cleanStr s) ∧ validTypes e.types = true ∧
    (e.uris.length ≤ 1 ∧ ∀ u ∈ e.uris, cleanStr u ∧ n.url u = some u) ∧
    (∀ s ∈ e.suites, cleanStr s) ∧ (∀ s ∈ e.components, cleanStr s) ∧
    (∀ p, e.signed_by = some p → n.path p = p ∧ p.data ≠ [] ∧
      (∀ c, p.data.getLast? = some c → pyIsSpace c = false) ∧
      (∀ c ∈ p.data, pyIsLineBreak c = false)) := by
  unfold from_deb822_paragraph at h
  split at h
  · simp at h
  · next d hfold =>
    have hinv := foldProcess_inv lines {} d hlb hfold dictInv_init
    obtain ⟨i1, i2, i3, i4, i5⟩ := hinv
    split at h
    · simp at h
    · split at h
      · next e' hval =>
        injection h with h2
        injection h2 with h3
        subst h3
        obtain ⟨ts', us', ss', cs', hts, hus, hss, hcs⟩ := model_validate_ok_fields hval
        rw [hts, hus, hss, hcs] at hval
        obtain ⟨hvt, us2, hurls, he⟩ := model_validate_ok_inv hval
        subst he
        refine ⟨fun s hs => i1 ts' hts s hs, hvt, ?_, fun s hs => i3 ss' hss s hs,
          fun s hs => i4 cs' hcs s hs, ?_⟩
        · obtain ⟨hlen, hcl⟩ := i2 us' hus
          cases us' with
          | nil =>
            have : us2 = [] := by
              have hu0 : validateUrls n [] = some [] := rfl
              rw [hu0] at hurls
              exact (Option.some.inj hurls).symm
            subst this
            exact ⟨by simp, fun u hu => absurd hu (by simp)⟩
          | cons u0 us0 =>
            cases us0 with
            | nil =>
              obtain ⟨u, hu, hl⟩ := validateUrls_single hurls
              subst hl
              refine ⟨by simp, fun w hw => ?_⟩
              rw [List.mem_singleton] at hw
              subst hw
              exact ⟨hn.url_clean _ _ hu, hn.url_idem _ _ hu⟩
            | cons u1 us1 => simp at hlen
        · intro p hp
          simp only [] at hp
          cases hsb : d.signed_by with
          | none => rw [hsb] at hp; simp at hp
          | some v =>
            rw [hsb] at hp
            simp only [Option.map_some', Option.some.injEq] at hp
            subst hp
            obtain ⟨hvlast, hvlb⟩ := i5 v hsb
            exact ⟨hn.path_idem v, hn.path_ne v, hn.path_trail v hvlast,
              hn.path_lb v hvlb⟩
      · simp at h

theorem getLast?_mem_chars : ∀ {l : List Char} {c : Char}, l.getLast? = some c → c ∈ l := by
  intro l
  induction l with
  | nil => intro c h; simp at h
  | cons x xs ih =>
    intro c h
    cases xs with
    | nil =>
      have : x = c := by simpa using h
      simp [this]
    | cons y ys =>
      rw [List.getLast?_cons_cons] at h
      exact List.mem_cons_of_mem _ (ih h)

theorem joinChars_mem : ∀ {L : List (List Char)} {c : Char}, c ∈ joinChars L →
    c = ' ' ∨ ∃ w ∈ L, c ∈ w := by
  intro L
  induction L with
  | nil => intro c hc; simp [joinChars] at hc
  | cons w rest ih =>
    intro c hc
    cases rest with
    | nil => exact Or.inr ⟨w, by simp, by simpa [joinChars] using hc⟩
    | cons x xs =>
      rw [show joinChars (w :: x :: xs) = w ++ ' ' :: joinChars (x :: xs) from rfl] at hc
      rcases List.mem_append.mp hc with h | h
      · exact Or.inr ⟨w, by simp, h⟩
      · rcases List.mem_cons.mp h with h | h
        · exact Or.inl h
        · rcases ih h with h | ⟨v, hv, hcv⟩
          · exact Or.inl h
          · exact Or.inr ⟨v, by simp [hv], hcv⟩

theorem pyJoin_noLB {l : List String} (hcl : ∀ s ∈ l, cleanStr s) :
    ∀ c ∈ (pyJoin " " l).data, pyIsLineBreak c = false := by
  intro c hc
  rw [pyJoin_space_data] at hc
  rcases joinChars_mem hc with h | ⟨w, hw, hcw⟩
  · subst h; decide
  · obtain ⟨s, hs, rfl⟩ := List.mem_map.mp hw
    have hws := (hcl s hs).2 c hcw
    cases hlbc : pyIsLineBreak c with
    | false => rfl
    | true =>
      have := lb_is_ws hlbc
      rw [hws] at this
      exact absurd this (by simp)

theorem pyJoin_last_nonws : ∀ {l : List String}, (∀ s ∈ l, cleanStr s) →
    ∀ c, (pyJoin " " l).data.getLast? = some c → pyIsSpace c = false := by
  intro l
  induction l with
  | nil =>
    intro _ c hc
    simp [pyJoin] at hc
  | cons x xs ih =>
    intro hcl c hc
    cases xs with
    | nil =>
      have hx : (pyJoin " " [x]).data = x.data := rfl
      rw [hx] at hc
      exact (hcl x (by simp)).2 c (getLast?_mem_chars hc)
    | cons y ys =>
      have hshape : (pyJoin " " (x :: y :: ys)).data =
          x.data ++ ' ' :: (pyJoin " " (y :: ys)).data := by
        show (x ++ " " ++ pyJoin " " (y :: ys)).data = _
        exact data_space_sep x _
      rw [hshape, getLast?_append_right (by simp) _] at hc
      obtain ⟨z, zs, hz, _⟩ := pyJoin_head_shape (l := y :: ys) (by simp)
        (fun s hs => hcl s (by simp [hs]))
      rw [hz, List.getLast?_cons_cons, ← hz] at hc
      exact ih (fun s hs => hcl s (by simp [hs])) c hc

theorem pyJoin_ne_nil {l : List String} (hne : l ≠ []) (hcl : ∀ s ∈ l, cleanStr s) :
    (pyJoin " " l).data ≠ [] := by
  obtain ⟨y, ys, hy, _⟩ := pyJoin_head_shape hne hcl
  rw [hy]
  simp

theorem data_field_line (f val : String) :
    (f ++ ": " ++ val).data = f.data ++ ':' :: ' ' :: val.data := by
  rw [String.data_append, String.data_append]
  show f.data ++ [':', ' '] ++ val.data = _
  rw [List.append_assoc]
  rfl

theorem field_line_noLB {f val : String} (hf : ∀ c ∈ f.data, pyIsLineBreak c = false)
    (hv : ∀ c ∈ val.data, pyIsLineBreak c = false) :
    ∀ c ∈ (f ++ ": " ++ val).data, pyIsLineBreak c = false := by
  intro c hc
  rw [data_field_line] at hc
  rcases List.mem_append.mp hc with h | h
  · exact hf c h
  · rcases List.mem_cons.mp h with h | h
    · subst h; decide
    · rcases List.mem_cons.mp h with h | h
      · subst h; decide
      · exact hv c h

/-- A `"Field: value"` line is neither stripped nor taken for a comment by
the deb822 line loop: it dispatches straight to the field handler. -/
theorem process_field_line (d : Deb822Dict) {f val : String}
    (hf : ':' ∉ f.data)
    (hfh : ∃ x xs, f.data = x :: xs ∧ pyIsSpace x = false ∧ x ≠ '#')
    (hvne : val.data ≠ [])
    (hvlast : ∀ c, val.data.getLast? = some c → pyIsSpace c = false) :
    processDeb822Line d (f ++ ": " ++ val) = processDeb822Field d f val := by
  obtain ⟨x, xs, hx, hxws, hxh⟩ := hfh
  have hdata := data_field_line f val
  have hstrip : pyStrip (f ++ ": " ++ val) = f ++ ": " ++ val := by
    apply String.ext
    show stripChars (f ++ ": " ++ val).data = (f ++ ": " ++ val).data
    apply strip_eq_self
    · intro c hc
      rw [hdata, hx, List.cons_append] at hc
      have : x = c := by simpa using hc
      subst this
      exact hxws
    · intro c hc
      rw [hdata,
        show f.data ++ ':' :: ' ' :: val.data = (f.data ++ [':', ' ']) ++ val.data by simp,
        getLast?_append_right hvne _] at hc
      exact hvlast c hc
  unfold processDeb822Line
  rw [hstrip]
  rw [if_neg (by
    show ¬ pyStartsWith (f ++ ": " ++ val) "#" = true
    unfold pyStartsWith
    rw [show ("#" : String).data = ['#'] from rfl, hdata, hx, List.cons_append]
    simp [List.isPrefixOf, Ne.symm hxh])]
  rw [pyPartition_build hf]

theorem foldProcess_cons_ok {d d' : Deb822Dict} {l : String} (ls : List String)
    (h : processDeb822Line d l = .ok d') :
    foldProcess d (l :: ls) = foldProcess d' ls := by
  show (match processDeb822Line d l with
    | .error e => .error e
    | .ok d2 => foldProcess d2 ls) = foldProcess d' ls
  rw [h]

theorem field_types_eq (d : Deb822Dict) (val : String) :
    processDeb822Field d "Types" val = .ok { d with types := some (pySplitWs val) } := by
  unfold processDeb822Field
  rw [if_pos (by decide)]

theorem field_uris_eq (d : Deb822Dict) {val : String} (h : ¬ (pySplitWs val).length > 1) :
    processDeb822Field d "URIs" val = .ok { d with uris := some (pySplitWs val) } := by
  unfold processDeb822Field
  rw [if_neg (by decide), if_pos (by decide), if_neg h]

theorem field_suites_eq (d : Deb822Dict) (val : String) :
    processDeb822Field d "Suites" val = .ok { d with suites := some (pySplitWs val) } := by
  unfold processDeb822Field
  rw [if_neg (by decide), if_neg (by decide), if_pos (by decide)]

theorem field_components_eq (d : Deb822Dict) (val : String) :
    processDeb822Field d "Components" val =
      .ok { d with components := some (pySplitWs val) } := by
  unfold processDeb822Field
  rw [if_neg (by decide), if_neg (by decide), if_neg (by decide), if_pos (by decide)]

theorem field_signed_by_eq (d : Deb822Dict) (val : String) :
    processDeb822Field d "Signed-By" val = .ok { d with signed_by := some val } := by
  unfold processDeb822Field
  rw [if_neg (by decide), if_neg (by decide), if_neg (by decide), if_neg (by decide),
    if_neg (by decide), if_pos (by decide)]

theorem getLast?_line_chain {a r : List Char} (hr : r ≠ []) :
    (a ++ '\n' :: r).getLast? = r.getLast? := by
  rw [show a ++ '\n' :: r = (a ++ ['\n']) ++ r by simp, getLast?_append_right hr]

theorem pyRstrip_append_newline_data (B : String) :
    (pyRstrip B ++ "\n").data = rstripChars B.data ++ ['\n'] := by
  rw [String.data_append]
  rfl

/-- Serialization of an entry carrying a `Signed-By` path: `to_deb822`
followed by `splitlines` yields exactly the five field lines. -/
theorem to_deb822_lines_signed {e : AptSource} {p : String}
    (hsb : e.signed_by = some p)
    (ht : e.types ≠ []) (hc : e.components ≠ [])
    (htcl : ∀ s ∈ e.types, cleanStr s) (hucl : ∀ s ∈ e.uris, cleanStr s)
    (hscl : ∀ s ∈ e.suites, cleanStr s) (hccl : ∀ s ∈ e.components, cleanStr s)
    (hpne : p.data ≠ [])
    (hplast : ∀ c, p.data.getLast? = some c → pyIsSpace c = false)
    (hplb : ∀ c ∈ p.data, pyIsLineBreak c = false) :
    pySplitlines (AptSource.to_deb822 e) =
      ["Types" ++ ": " ++ pyJoin " " e.types,
       "URIs" ++ ": " ++ pyJoin " " e.uris,
       "Suites" ++ ": " ++ pyJoin " " e.suites,
       "Components" ++ ": " ++ pyJoin " " e.components,
       "Signed-By" ++ ": " ++ p] := by
  have htE : ¬ e.types.isEmpty = true := by simpa [List.isEmpty_iff] using ht
  have hcE : ¬ e.components.isEmpty = true := by simpa [List.isEmpty_iff] using hc
  have h0 : AptSource.to_deb822 e =
      pyRstrip ("Types: " ++ (if e.types.isEmpty then "deb" else pyJoin " " e.types) ++ "\n" ++
        "URIs: " ++ pyJoin " " e.uris ++ "\n" ++
        "Suites: " ++ pyJoin " " e.suites ++ "\n" ++
        "Components: " ++
          (if e.components.isEmpty then "./" else pyJoin " " e.components) ++ "\n" ++
        (match e.signed_by with
          | some q => "Signed-By: " ++ q
          | none => "") ++ "\n") ++ "\n" := rfl
  rw [hsb, if_neg htE, if_neg hcE] at h0
  replace h0 : AptSource.to_deb822 e =
      pyRstrip ("Types: " ++ pyJoin " " e.types ++ "\n" ++
        "URIs: " ++ pyJoin " " e.uris ++ "\n" ++
        "Suites: " ++ pyJoin " " e.suites ++ "\n" ++
        "Components: " ++ pyJoin " " e.components ++ "\n" ++
        ("Signed-By: " ++ p) ++ "\n") ++ "\n" := h0
  have hbody : ("Types: " ++ pyJoin " " e.types ++ "\n" ++
        "URIs: " ++ pyJoin " " e.uris ++ "\n" ++
        "Suites: " ++ pyJoin " " e.suites ++ "\n" ++
        "Components: " ++ pyJoin " " e.components ++ "\n" ++
        ("Signed-By: " ++ p) ++ "\n").data =
      (("Types" ++ ": " ++ pyJoin " " e.types).data ++
        '\n' :: (("URIs" ++ ": " ++ pyJoin " " e.uris).data ++
        '\n' :: (("Suites" ++ ": " ++ pyJoin " " e.suites).data ++
        '\n' :: (("Components" ++ ": " ++ pyJoin " " e.components).data ++
        '\n' :: ("Signed-By" ++ ": " ++ p).data)))) ++ ['\n'] := by
    simp [String.data_append, data_field_line, List.append_assoc,
      show ("Types: " : String).data = "Types".data ++ [':', ' '] from rfl,
      show ("URIs: " : String).data = "URIs".data ++ [':', ' '] from rfl,
      show ("Suites: " : String).data = "Suites".data ++ [':', ' '] from rfl,
      show ("Components: " : String).data = "Components".data ++ [':', ' '] from rfl,
      show ("Signed-By: " : String).data = "Signed-By".data ++ [':', ' '] from rfl,
      show ("\n" : String).data = ['\n'] from rfl]
  have hlast : ∀ c, (("Types" ++ ": " ++ pyJoin " " e.types).data ++
        '\n' :: (("URIs" ++ ": " ++ pyJoin " " e.uris).data ++
        '\n' :: (("Suites" ++ ": " ++ pyJoin " " e.suites).data ++
        '\n' :: (("Components" ++ ": " ++ pyJoin " " e.components).data ++
        '\n' :: ("Signed-By" ++ ": " ++ p).data)))).getLast? = some c →
      pyIsSpace c = false := by
    intro c hcc
    rw [getLast?_line_chain (by simp), getLast?_line_chain (by simp),
      getLast?_line_chain (by simp),
      getLast?_line_chain (by rw [data_field_line]; simp),
      data_field_line,
      show "Signed-By".data ++ ':' :: ' ' :: p.data =
        ("Signed-By".data ++ [':', ' ']) ++ p.data by simp,
      getLast?_append_right hpne _] at hcc
    exact hplast c hcc
  have hlinesLB : ∀ l ∈ [("Types" ++ ": " ++ pyJoin " " e.types).data,
        ("URIs" ++ ": " ++ pyJoin " " e.uris).data,
        ("Suites" ++ ": " ++ pyJoin " " e.suites).data,
        ("Components" ++ ": " ++ pyJoin " " e.components).data,
        ("Signed-By" ++ ": " ++ p).data], ∀ ch ∈ l, pyIsLineBreak ch = false := by
    intro l hl
    simp only [List.mem_cons, List.not_mem_nil, or_false] at hl
    rcases hl with h | h | h | h | h
    · subst h; exact field_line_noLB (by decide) (pyJoin_noLB htcl)
    · subst h; exact field_line_noLB (by decide) (pyJoin_noLB hucl)
    · subst h; exact field_line_noLB (by decide) (pyJoin_noLB hscl)
    · subst h; exact field_line_noLB (by decide) (pyJoin_noLB hccl)
    · subst h; exact field_line_noLB (by decide) hplb
  unfold pySplitlines
  rw [h0]
  rw [pyRstrip_append_newline_data]
  rw [hbody, rstrip_newline, rstrip_eq_self hlast]
  rw [show (("Types" ++ ": " ++ pyJoin " " e.types).data ++
        '\n' :: (("URIs" ++ ": " ++ pyJoin " " e.uris).data ++
        '\n' :: (("Suites" ++ ": " ++ pyJoin " " e.suites).data ++
        '\n' :: (("Components" ++ ": " ++ pyJoin " " e.components).data ++
        '\n' :: ("Signed-By" ++ ": " ++ p).data)))) ++ ['\n'] =
      [("Types" ++ ": " ++ pyJoin " " e.types).data,
       ("URIs" ++ ": " ++ pyJoin " " e.uris).data,
       ("Suites" ++ ": " ++ pyJoin " " e.suites).data,
       ("Components" ++ ": " ++ pyJoin " " e.components).data,
       ("Signed-By" ++ ": " ++ p).data].flatMap (fun l => l ++ ['\n']) by
    simp [List.append_assoc]]
  rw [splitlines_concat _ hlinesLB]
  simp [String.ext_iff, String.data_append,
    show ("Types: " : String).data = ['T','y','p','e','s',':',' '] from rfl,
    show ("URIs: " : String).data = ['U','R','I','s',':',' '] from rfl,
    show ("Suites: " : String).data = ['S','u','i','t','e','s',':',' '] from rfl,
    show ("Components: " : String).data = ['C','o','m','p','o','n','e','n','t','s',':',' ']
      from rfl,
    show ("Signed-By: " : String).data = ['S','i','g','n','e','d','-','B','y',':',' ']
      from rfl]

/-- Serialization of an entry with no `Signed-By` path: `to_deb822` followed
by `splitlines` yields exactly the four field lines. -/
theorem to_deb822_lines_unsigned {e : AptSource}
    (hsb : e.signed_by = none)
    (ht : e.types ≠ []) (hc : e.components ≠ [])
    (htcl : ∀ s ∈ e.types, cleanStr s) (hucl : ∀ s ∈ e.uris, cleanStr s)
    (hscl : ∀ s ∈ e.suites, cleanStr s) (hccl : ∀ s ∈ e.components, cleanStr s) :
    pySplitlines (AptSource.to_deb822 e) =
      ["Types" ++ ": " ++ pyJoin " " e.types,
       "URIs" ++ ": " ++ pyJoin " " e.uris,
       "Suites" ++ ": " ++ pyJoin " " e.suites,
       "Components" ++ ": " ++ pyJoin " " e.components] := by
  have htE : ¬ e.types.isEmpty = true := by simpa [List.isEmpty_iff] using ht
  have hcE : ¬ e.components.isEmpty = true := by simpa [List.isEmpty_iff] using hc
  have h0 : AptSource.to_deb822 e =
      pyRstrip ("Types: " ++ (if e.types.isEmpty then "deb" else pyJoin " " e.types) ++ "\n" ++
        "URIs: " ++ pyJoin " " e.uris ++ "\n" ++
        "Suites: " ++ pyJoin " " e.suites ++ "\n" ++
        "Components: " ++
          (if e.components.isEmpty then "./" else pyJoin " " e.components) ++ "\n" ++
        (match e.signed_by with
          | some q => "Signed-By: " ++ q
          | none => "") ++ "\n") ++ "\n" := rfl
  rw [hsb, if_neg htE, if_neg hcE] at h0
  replace h0 : AptSource.to_deb822 e =
      pyRstrip ("Types: " ++ pyJoin " " e.types ++ "\n" ++
        "URIs: " ++ pyJoin " " e.uris ++ "\n" ++
        "Suites: " ++ pyJoin " " e.suites ++ "\n" ++
        "Components: " ++ pyJoin " " e.components ++ "\n" ++
        "" ++ "\n") ++ "\n" := h0
  have hbody : ("Types: " ++ pyJoin " " e.types ++ "\n" ++
        "URIs: " ++ pyJoin " " e.uris ++ "\n" ++
        "Suites: " ++ pyJoin " " e.suites ++ "\n" ++
        "Components: " ++ pyJoin " " e.components ++ "\n" ++
        "" ++ "\n").data =
      ((("Types" ++ ": " ++ pyJoin " " e.types).data ++
        '\n' :: (("URIs" ++ ": " ++ pyJoin " " e.uris).data ++
        '\n' :: (("Suites" ++ ": " ++ pyJoin " " e.suites).data ++
        '\n' :: ("Components" ++ ": " ++ pyJoin " " e.components).data))) ++ ['\n']) ++
        ['\n'] := by
    simp [String.data_append, data_field_line, List.append_assoc,
      show ("Types: " : String).data = "Types".data ++ [':', ' '] from rfl,
      show ("URIs: " : String).data = "URIs".data ++ [':', ' '] from rfl,
      show ("Suites: " : String).data = "Suites".data ++ [':', ' '] from rfl,
      show ("Components: " : String).data = "Components".data ++ [':', ' '] from rfl,
      show ("\n" : String).data = ['\n'] from rfl,
      show ("" : String).data = [] from rfl]
  have hJ4ne : (pyJoin " " e.components).data ≠ [] := pyJoin_ne_nil hc hccl
  have hlast : ∀ c, (("Types" ++ ": " ++ pyJoin " " e.types).data ++
        '\n' :: (("URIs" ++ ": " ++ pyJoin " " e.uris).data ++
        '\n' :: (("Suites" ++ ": " ++ pyJoin " " e.suites).data ++
        '\n' :: ("Components" ++ ": " ++ pyJoin " " e.components).data))).getLast? =
        some c → pyIsSpace c = false := by
    intro c hcc
    rw [getLast?_line_chain (by simp), getLast?_line_chain (by simp),
      getLast?_line_chain (by rw [data_field_line]; simp),
      data_field_line,
      show "Components".data ++ ':' :: ' ' :: (pyJoin " " e.components).data =
        ("Components".data ++ [':', ' ']) ++ (pyJoin " " e.components).data by simp,
      getLast?_append_right hJ4ne _] at hcc
    exact pyJoin_last_nonws hccl c hcc
  have hlinesLB : ∀ l ∈ [("Types" ++ ": " ++ pyJoin " " e.types).data,
        ("URIs" ++ ": " ++ pyJoin " " e.uris).data,
        ("Suites" ++ ": " ++ pyJoin " " e.suites).data,
        ("Components" ++ ": " ++ pyJoin " " e.components).data],
      ∀ ch ∈ l, pyIsLineBreak ch = false := by
    intro l hl
    simp only [List.mem_cons, List.not_mem_nil, or_false] at hl
    rcases hl with h | h | h | h
    · subst h; exact field_line_noLB (by decide) (pyJoin_noLB htcl)
    · subst h; exact field_line_noLB (by decide) (pyJoin_noLB hucl)
    · subst h; exact field_line_noLB (by decide) (pyJoin_noLB hscl)
    · subst h; exact field_line_noLB (by decide) (pyJoin_noLB hccl)
  unfold pySplitlines
  rw [h0]
  rw [pyRstrip_append_newline_data]
  rw [hbody, rstrip_newline, rstrip_newline, rstrip_eq_self hlast]
  rw [show (("Types" ++ ": " ++ pyJoin " " e.types).data ++
        '\n' :: (("URIs" ++ ": " ++ pyJoin " " e.uris).data ++
        '\n' :: (("Suites" ++ ": " ++ pyJoin " " e.suites).data ++
        '\n' :: ("Components" ++ ": " ++ pyJoin " " e.components).data))) ++ ['\n'] =
      [("Types" ++ ": " ++ pyJoin " " e.types).data,
       ("URIs" ++ ": " ++ pyJoin " " e.uris).data,
       ("Suites" ++ ": " ++ pyJoin " " e.suites).data,
       ("Components" ++ ": " ++ pyJoin " " e.components).data].flatMap
        (fun l => l ++ ['\n']) by
    simp [List.append_assoc]]
  rw [splitlines_concat _ hlinesLB]
  simp [String.ext_iff, String.data_append,
    show ("Types: " : String).data = ['T','y','p','e','s',':',' '] from rfl,
    show ("URIs: " : String).data = ['U','R','I','s',':',' '] from rfl,
    show ("Suites: " : String).data = ['S','u','i','t','e','s',':',' '] from rfl,
    show ("Components: " : String).data = ['C','o','m','p','o','n','e','n','t','s',':',' ']
      from rfl]

/-- Final step of `_from_deb822_paragraph`: a fold ending in the four
required fields (plus the entry's own `signed_by`) validates back to the
entry itself. -/
theorem paragraph_finish {n : Norms} {para : List String} {e : AptSource}
    (hfold : foldProcess {} para = .ok
      { types := some e.types, uris := some e.uris, suites := some e.suites, components := some e.components, enabled := none, signed_by := e.signed_by, architectures := none })
    (hvt : validTypes e.types = true)
    (hus : validateUrls n e.uris = some e.uris)
    (hsb : e.signed_by.map n.path = e.signed_by)
    (har : e.architectures = none) :
    from_deb822_paragraph n para = .ok (some e) := by
  unfold from_deb822_paragraph
  rw [hfold]
  show (if Deb822Dict.isEmptyDict
        { types := some e.types, uris := some e.uris, suites := some e.suites,
          components := some e.components, enabled := none, signed_by := e.signed_by,
          architectures := none } = true
      then (Except.ok none : Except String (Option AptSource))
      else
        match AptSource.model_validate n (some e.types) (some e.uris) (some e.suites)
            (some e.components) e.signed_by none with
        | .ok e2 => .ok (some e2)
        | .error m => .error m) = .ok (some e)
  rw [if_neg (by exact Bool.false_ne_true)]
  rw [model_validate_compute e.signed_by none hvt hus]
  show Except.ok (some ({ types := e.types, uris := e.uris, suites := e.suites, components := e.components, signed_by := e.signed_by.map n.path, architectures := none } : AptSource)) = Except.ok (some e)
  rw [hsb]
  have he : ({ types := e.types, uris := e.uris, suites := e.suites, components := e.components, signed_by := e.signed_by, architectures := none } : AptSource) = e := by
    rw [← har]
  rw [he]

/-- deb822 round trip: an entry parsed from a paragraph whose
`Architectures` field was absent and whose four list fields are non-empty
serializes to a paragraph that parses back to the identical entry. -/
theorem deb822_roundtrip {n : Norms} (hn : GoodNorms n) {lines : List String} {e : AptSource}
    (hlb : ∀ l ∈ lines, ∀ c ∈ l.data, pyIsLineBreak c = false)
    (h : from_deb822_paragraph n lines = .ok (some e))
    (har : e.architectures = none)
    (ht : e.types ≠ []) (hu : e.uris ≠ []) (hs : e.suites ≠ []) (hc : e.components ≠ []) :
    from_deb822_paragraph n (pySplitlines (AptSource.to_deb822 e)) = .ok (some e) := by
  obtain ⟨htcl, hvt, ⟨hulen, hucl2⟩, hscl, hccl, hsbf⟩ := from_deb822_paragraph_inv hn hlb h
  have hucl : ∀ s ∈ e.uris, cleanStr s := fun s hsm => (hucl2 s hsm).1
  have hvurl : validateUrls n e.uris = some e.uris := by
    cases hulist : e.uris with
    | nil => rfl
    | cons u us =>
      cases us with
      | nil => exact validateUrls_single_fixed (hucl2 u (by rw [hulist]; simp)).2
      | cons v vs =>
        rw [hulist] at hulen
        simp at hulen
  have hv1ne : (pyJoin " " e.types).data ≠ [] := pyJoin_ne_nil ht htcl
  have hv2ne : (pyJoin " " e.uris).data ≠ [] := pyJoin_ne_nil hu hucl
  have hv3ne : (pyJoin " " e.suites).data ≠ [] := pyJoin_ne_nil hs hscl
  have hv4ne : (pyJoin " " e.components).data ≠ [] := pyJoin_ne_nil hc hccl
  have s1 : processDeb822Line ({} : Deb822Dict) ("Types" ++ ": " ++ pyJoin " " e.types) =
      .ok { types := some e.types } := by
    rw [process_field_line _ (by decide) ⟨'T', _, rfl, by decide, by decide⟩ hv1ne
      (pyJoin_last_nonws htcl)]
    rw [field_types_eq, pySplitWs_join (fun s hsm => htcl s hsm)]
  have s2 : processDeb822Line ({ types := some e.types } : Deb822Dict)
      ("URIs" ++ ": " ++ pyJoin " " e.uris) =
      .ok { types := some e.types, uris := some e.uris } := by
    rw [process_field_line _ (by decide) ⟨'U', _, rfl, by decide, by decide⟩ hv2ne
      (pyJoin_last_nonws hucl)]
    rw [field_uris_eq _ (by rw [pySplitWs_join (fun s hsm => hucl s hsm)]; omega)]
    rw [pySplitWs_join (fun s hsm => hucl s hsm)]
  have s3 : processDeb822Line ({ types := some e.types, uris := some e.uris } : Deb822Dict)
      ("Suites" ++ ": " ++ pyJoin " " e.suites) =
      .ok { types := some e.types, uris := some e.uris, suites := some e.suites } := by
    rw [process_field_line _ (by decide) ⟨'S', _, rfl, by decide, by decide⟩ hv3ne
      (pyJoin_last_nonws hscl)]
    rw [field_suites_eq, pySplitWs_join (fun s hsm => hscl s hsm)]
  have s4 : processDeb822Line ({ types := some e.types, uris := some e.uris, suites := some e.suites } : Deb822Dict)
      ("Components" ++ ": " ++ pyJoin " " e.components) =
      .ok { types := some e.types, uris := some e.uris, suites := some e.suites, components := some e.components } := by
    rw [process_field_line _ (by decide) ⟨'C', _, rfl, by decide, by decide⟩ hv4ne
      (pyJoin_last_nonws hccl)]
    rw [field_components_eq, pySplitWs_join (fun s hsm => hccl s hsm)]
  cases hsbc : e.signed_by with
  | some p =>
    obtain ⟨hpfix, hpne, hplast, hplb⟩ := hsbf p hsbc
    rw [to_deb822_lines_signed hsbc ht hc htcl hucl hscl hccl hpne hplast hplb]
    have s5 : processDeb822Line ({ types := some e.types, uris := some e.uris, suites := some e.suites, components := some e.components } : Deb822Dict)
        ("Signed-By" ++ ": " ++ p) =
        .ok { types := some e.types, uris := some e.uris, suites := some e.suites, components := some e.components, signed_by := some p } := by
      rw [process_field_line _ (by decide) ⟨'S', _, rfl, by decide, by decide⟩ hpne hplast]
      rw [field_signed_by_eq]
    have hfold : foldProcess {} ["Types" ++ ": " ++ pyJoin " " e.types,
        "URIs" ++ ": " ++ pyJoin " " e.uris,
        "Suites" ++ ": " ++ pyJoin " " e.suites,
        "Components" ++ ": " ++ pyJoin " " e.components,
        "Signed-By" ++ ": " ++ p] = .ok
        { types := some e.types, uris := some e.uris, suites := some e.suites, components := some e.components, enabled := none, signed_by := e.signed_by, architectures := none } := by
      rw [foldProcess_cons_ok _ s1, foldProcess_cons_ok _ s2, foldProcess_cons_ok _ s3,
        foldProcess_cons_ok _ s4, foldProcess_cons_ok _ s5, hsbc]
      rfl
    exact paragraph_finish hfold hvt hvurl (by rw [hsbc]; simp [hpfix]) har
  | none =>
    rw [to_deb822_lines_unsigned hsbc ht hc htcl hucl hscl hccl]
    have hfold : foldProcess {} ["Types" ++ ": " ++ pyJoin " " e.types,
        "URIs" ++ ": " ++ pyJoin " " e.uris,
        "Suites" ++ ": " ++ pyJoin " " e.suites,
        "Components" ++ ": " ++ pyJoin " " e.components] = .ok
        { types := some e.types, uris := some e.uris, suites := some e.suites, components := some e.components, enabled := none, signed_by := e.signed_by, architectures := none } := by
      rw [foldProcess_cons_ok _ s1, foldProcess_cons_ok _ s2, foldProcess_cons_ok _ s3,
        foldProcess_cons_ok _ s4, hsbc]
      rfl
    exact paragraph_finish hfold hvt hvurl (by rw [hsbc]; rfl) har

/-- C2 (counterexample to the claim as stated): an entry parsed from a
deb822 paragraph carrying an `Architectures` field does not survive the
serialize/parse round trip — `to_deb822` never emits `Architectures`, so the
reparsed entry differs from the original. -/
theorem C2_counterexample :
    from_deb822_paragraph stubNorms
      ["Types: deb", "URIs: http://example.com/repo", "Suites: stable",
       "Components: main", "Architectures: amd64"] =
      .ok (some { types := ["deb"], uris := ["http://example.com/repo"], suites := ["stable"], components := ["main"], architectures := some ["amd64"] }) ∧
    from_deb822_paragraph stubNorms (pySplitlines (AptSource.to_deb822
      { types := ["deb"], uris := ["http://example.com/repo"], suites := ["stable"], components := ["main"], architectures := some ["amd64"] })) =
      .ok (some { types := ["deb"], uris := ["http://example.com/repo"], suites := ["stable"], components := ["main"], architectures := none }) ∧
    ({ types := ["deb"], uris := ["http://example.com/repo"], suites := ["stable"], components := ["main"], architectures := none } : AptSource) ≠
      { types := ["deb"], uris := ["http://example.com/repo"], suites := ["stable"], components := ["main"], architectures := some ["amd64"] } := by
  refine ⟨by decide, by decide, by decide⟩

/-- C2 (amended): for entries obtained by parsing, serialize-then-parse is
the identity in both formats, under the conditions forced by the code: in
the one-line format unconditionally; in the deb822 format provided the
parsed entry carries no `Architectures` field (which `to_deb822` never
emits) and its four list fields are non-empty (an empty list would
serialize under a default or yield a field line that no longer parses back
to the same value).  In particular the scenario line
`"deb http://archive.ubuntu.com/ubuntu xenial main restricted"` parses to
exactly one entry, with the four fields as claimed, and serializes back to
the identical line. -/
theorem C2_roundtrip_amended {n : Norms} (hn : GoodNorms n) :
    (∀ data e, from_sources_list_line n data = .ok e →
      ∃ l, AptSource.to_sources_list e = [l] ∧ from_sources_list_line n l = .ok e) ∧
    (∀ lines e, (∀ l ∈ lines, ∀ c ∈ l.data, pyIsLineBreak c = false) →
      from_deb822_paragraph n lines = .ok (some e) →
      e.architectures = none → e.types ≠ [] → e.uris ≠ [] → e.suites ≠ [] →
      e.components ≠ [] →
      from_deb822_paragraph n (pySplitlines (AptSource.to_deb822 e)) = .ok (some e)) ∧
    (from_sources_list stubNorms ["deb http://archive.ubuntu.com/ubuntu xenial main restricted"] =
      .ok [{ types := ["deb"], uris := ["http://archive.ubuntu.com/ubuntu"], suites := ["xenial"], components := ["main", "restricted"] }] ∧
     AptSource.to_sources_list { types := ["deb"], uris := ["http://archive.ubuntu.com/ubuntu"], suites := ["xenial"], components := ["main", "restricted"] } =
      ["deb http://archive.ubuntu.com/ubuntu xenial main restricted"]) := by
  refine ⟨fun data e h => oneline_roundtrip hn h,
    fun lines e hlb h har ht hu hs hc => deb822_roundtrip hn hlb h har ht hu hs hc,
    by decide, by decide⟩

/-- Witness for C2: the amended round trip applied at the concrete
normalisers and concrete inputs. -/
theorem C2_roundtrip_amended_witness :
    (∃ l, AptSource.to_sources_list { types := ["deb"], uris := ["http://archive.ubuntu.com/ubuntu"], suites := ["xenial"], components := ["main", "restricted"] } = [l] ∧
      from_sources_list_line stubNorms l =
        .ok { types := ["deb"], uris := ["http://archive.ubuntu.com/ubuntu"], suites := ["xenial"], components := ["main", "restricted"] }) ∧
    from_deb822_paragraph stubNorms (pySplitlines (AptSource.to_deb822
      { types := ["deb"], uris := ["http://example.com/repo"], suites := ["stable"], components := ["main"] })) =
      .ok (some { types := ["deb"], uris := ["http://example.com/repo"], suites := ["stable"], components := ["main"] }) := by
  have H := C2_roundtrip_amended stubNorms_good
  exact ⟨H.1 "deb http://archive.ubuntu.com/ubuntu xenial main restricted"
      { types := ["deb"], uris := ["http://archive.ubuntu.com/ubuntu"], suites := ["xenial"], components := ["main", "restricted"] }
      (by decide),
    H.2.1 ["Types: deb", "URIs: http://example.com/repo", "Suites: stable", "Components: main"]
      { types := ["deb"], uris := ["http://example.com/repo"], suites := ["stable"], components := ["main"] }
      (by decide) (by decide) (by decide) (by decide) (by decide) (by decide) (by decide)⟩

end CraftArchives
